import Mathlib

/-!
# BLE bridge of the dive-computer plugin: `configuredc.c`

A shallow embedding of `src/ios/Plugin/Sources/LibDCBridge/src/configuredc.c`.

* Pointers are `Option`s (`none` is `NULL`); C strings are `String`s, read as the list of their
  characters (the terminating NUL is not part of the list).
* Calls into the protocol engine (libdivecomputer) and into the BLE subsystem are external. What
  such a call returns is a parameter of the function that makes the call, so that every outcome
  of every external call is covered by a universally quantified theorem.
* Every function also returns the list of resource events it performed, in program order. The
  events are ghost state: they are how acquire and release counts are stated.
* `printf` calls write to the console only and are left out.
-/

set_option autoImplicit false

namespace LibDCBridge

/-! ## Types of the protocol engine -/

/-- Status codes `dc_status_t` of the protocol engine, in the order of its `common.h`. -/
inductive dc_status_t
  | DC_STATUS_SUCCESS
  | DC_STATUS_DONE
  | DC_STATUS_UNSUPPORTED
  | DC_STATUS_INVALIDARGS
  | DC_STATUS_NOMEMORY
  | DC_STATUS_NODEVICE
  | DC_STATUS_NOACCESS
  | DC_STATUS_IO
  | DC_STATUS_TIMEOUT
  | DC_STATUS_PROTOCOL
  | DC_STATUS_DATAFORMAT
  | DC_STATUS_CANCELLED
  deriving DecidableEq

open dc_status_t

/-- Modelled from the spec: the BLE transport tag of the supported-transport bitmask. Its
declaration (the engine's `common.h`) is not among the source files; the engine uses bit 5. -/
def DC_TRANSPORT_BLE : Nat := 32

/-- Modelled from the spec: the family value that stands for "no family"
(`DC_FAMILY_NULL`), declared in the engine's `common.h`. -/
def DC_FAMILY_NULL : Nat := 0

/-- A catalog entry `dc_descriptor_t`, seen through its accessors: `dc_descriptor_get_vendor`,
`dc_descriptor_get_product`, `dc_descriptor_get_type`, `dc_descriptor_get_model`,
`dc_descriptor_get_transports`, and the name-filter predicate `dc_descriptor_filter`, which is
given the transport tag and the name and answers nonzero (`true`) or zero. -/
structure dc_descriptor_t where
  vendor : Option String
  product : Option String
  type : Nat
  model : Nat
  transports : Nat
  filter : Nat → String → Bool

/-- Resource events, in the order the code performs them. `it` numbers the catalog iterators a
call creates, `pos` is the position of a descriptor in the catalog, `h` is a connection handle. -/
inductive Event
  /-- A call of `dc_descriptor_iterator` succeeded and created iterator `it`. -/
  | iterator_new (it : Nat)
  /-- A call of `dc_iterator_free` on iterator `it`. -/
  | iterator_free (it : Nat)
  /-- A call of `dc_iterator_next` succeeded and handed over the descriptor at `pos`. -/
  | descriptor_next (it pos : Nat)
  /-- A call of `dc_descriptor_free` on the descriptor that `it` yielded at `pos`. -/
  | descriptor_free (it pos : Nat)
  /-- A call of `initializeBLEManager`. -/
  | ble_initialize
  /-- A call of `createBLEObject` returned the handle `h`. -/
  | ble_create (h : Nat)
  /-- A call of `connectToBLEDevice` on `h`. -/
  | ble_connect (h : Nat)
  /-- A call of `ble_close` on `h`. -/
  | ble_close (h : Nat)
  /-- A call of `freeBLEObject` on `h`. -/
  | ble_free (h : Nat)
  /-- A call of `malloc` for a `ble_stream_t` succeeded. -/
  | stream_malloc
  /-- A call of `free` on a `ble_stream_t`. -/
  | stream_free
  /-- A call of `dc_context_new` succeeded and wrote the context `c`. -/
  | context_new (c : Nat)
  /-- A call of `dc_context_free` on `c`. -/
  | context_free (c : Nat)
  /-- A call of `dc_iostream_close`. -/
  | iostream_close
  /-- A call of `dc_device_open` succeeded and wrote the device `d`. -/
  | device_open (d : Nat)
  /-- A call of `dc_device_close` on `d`. -/
  | device_close (d : Nat)
  /-- A call of `free` on the fingerprint bytes. -/
  | fingerprint_free
  /-- A call of `malloc` for a vendor-and-product string succeeded. -/
  | model_malloc
  /-- A call of `free` on the model string. -/
  | model_free
  /-- A call of `calloc` for the session record succeeded. -/
  | data_calloc
  /-- A call of `free` on the session record. -/
  | data_free
  deriving DecidableEq

/-! ## C string functions used by the resolver -/

/-- The libc `strncmp(a, b, n)`: compares at most `n` characters, stops at the end of either
string; only the sign of the result is specified, so it is `-1`, `0` or `1`. -/
def strncmp : List Char → List Char → Nat → Int
  | _, _, 0 => 0
  | [], [], _ + 1 => 0
  | [], _ :: _, _ + 1 => -1
  | _ :: _, [], _ + 1 => 1
  | c :: s, d :: p, n + 1 => if c = d then strncmp s p n else if c < d then -1 else 1

/-- The libc `strcmp(a, b)`, with the same convention for the sign. -/
def strcmp : List Char → List Char → Int
  | [], [] => 0
  | [], _ :: _ => -1
  | _ :: _, [] => 1
  | c :: s, d :: p => if c = d then strcmp s p else if c < d then -1 else 1

/-- The libc `strlen`. -/
def strlen (s : List Char) : Nat := s.length

/-- The libc `strstr(haystack, needle)`: the tail of `haystack` that starts at the first
occurrence of `needle`, or `none` (`NULL`) when there is none. -/
def strstr : List Char → List Char → Option (List Char)
  | [], p => if strncmp [] p (strlen p) = 0 then some [] else none
  | c :: s, p => if strncmp (c :: s) p (strlen p) = 0 then some (c :: s) else strstr s p

/-! ## Resolver by family and model -/

/-- What a resolver call leaves behind: the returned status, the descriptor written to
`*out_descriptor` (`none`: nothing written), and the resource events. -/
structure find_result where
  rc : dc_status_t
  out : Option dc_descriptor_t
  /-- Ghost: the iterator and the catalog position the returned descriptor came from. -/
  ref : Option (Nat × Nat)
  log : List Event

/-- The `while` loop of `find_descriptor_by_model` over the descriptors the iterator `it` still
has to yield, `pos` being the position of the next one. A status of `dc_iterator_next` other than
success ends the loop, so the catalog is the sequence of descriptors yielded before that. -/
def find_descriptor_by_model_loop (it : Nat) (family model : Nat) :
    Nat → List dc_descriptor_t → Option (Nat × dc_descriptor_t) × List Event
  | _, [] => (none, [])
  | pos, d :: rest =>
    if d.type = family ∧ d.model = model then
      (some (pos, d), [Event.descriptor_next it pos])
    else
      let r := find_descriptor_by_model_loop it family model (pos + 1) rest
      (r.1, Event.descriptor_next it pos :: Event.descriptor_free it pos :: r.2)

/-- The function `find_descriptor_by_model(&descriptor, family, model)`; `iter_rc` is what
`dc_descriptor_iterator` returns and `catalog` what the iterator yields. -/
def find_descriptor_by_model (iter_rc : dc_status_t) (catalog : List dc_descriptor_t)
    (family model : Nat) : find_result :=
  if iter_rc ≠ DC_STATUS_SUCCESS then
    { rc := iter_rc, out := none, ref := none, log := [] }
  else
    match find_descriptor_by_model_loop 0 family model 0 catalog with
    | (some (pos, d), evs) =>
      { rc := DC_STATUS_SUCCESS, out := some d, ref := some (0, pos),
        log := Event.iterator_new 0 :: evs ++ [Event.iterator_free 0] }
    | (none, evs) =>
      { rc := DC_STATUS_UNSUPPORTED, out := none, ref := none,
        log := Event.iterator_new 0 :: evs ++ [Event.iterator_free 0] }

/-! ## Resolver by name -/

/-- The match kinds of a naming rule. -/
inductive match_type_t
  | MATCH_EXACT
  | MATCH_PREFIX
  | MATCH_CONTAINS
  deriving DecidableEq

open match_type_t

/-- A naming rule, `struct name_pattern`. The field `pfx` is the field the source calls
`prefix` (the match text). -/
structure name_pattern where
  pfx : String
  vendor : String
  product : String
  match_type : match_type_t
  deriving DecidableEq

/-- The table `name_patterns`, in source order. -/
def name_patterns : List name_pattern := [
  -- Shearwater dive computers
  ⟨"Predator", "Shearwater", "Predator", MATCH_EXACT⟩,
  ⟨"Perdix 2", "Shearwater", "Perdix 2", MATCH_EXACT⟩,
  ⟨"Petrel 3", "Shearwater", "Petrel 3", MATCH_EXACT⟩,
  ⟨"Petrel", "Shearwater", "Petrel 2", MATCH_EXACT⟩,
  ⟨"Perdix", "Shearwater", "Perdix", MATCH_EXACT⟩,
  ⟨"Teric", "Shearwater", "Teric", MATCH_EXACT⟩,
  ⟨"Peregrine", "Shearwater", "Peregrine", MATCH_EXACT⟩,
  ⟨"NERD 2", "Shearwater", "NERD 2", MATCH_EXACT⟩,
  ⟨"NERD", "Shearwater", "NERD", MATCH_EXACT⟩,
  ⟨"Tern", "Shearwater", "Tern", MATCH_EXACT⟩,
  -- Suunto dive computers
  ⟨"EON Steel", "Suunto", "EON Steel", MATCH_EXACT⟩,
  ⟨"Suunto D5", "Suunto", "D5", MATCH_EXACT⟩,
  ⟨"EON Core", "Suunto", "EON Core", MATCH_EXACT⟩,
  -- Scubapro dive computers
  ⟨"G2", "Scubapro", "G2", MATCH_EXACT⟩,
  ⟨"HUD", "Scubapro", "G2 HUD", MATCH_EXACT⟩,
  ⟨"G3", "Scubapro", "G3", MATCH_EXACT⟩,
  ⟨"Aladin", "Scubapro", "Aladin Sport Matrix", MATCH_EXACT⟩,
  ⟨"A1", "Scubapro", "Aladin A1", MATCH_EXACT⟩,
  ⟨"A2", "Scubapro", "Aladin A2", MATCH_EXACT⟩,
  ⟨"Luna 2.0 AI", "Scubapro", "Luna 2.0 AI", MATCH_EXACT⟩,
  ⟨"Luna 2.0", "Scubapro", "Luna 2.0", MATCH_EXACT⟩,
  -- Mares dive computers
  ⟨"Mares Genius", "Mares", "Genius", MATCH_EXACT⟩,
  ⟨"Sirius", "Mares", "Sirius", MATCH_EXACT⟩,
  ⟨"Quad Ci", "Mares", "Quad Ci", MATCH_EXACT⟩,
  ⟨"Puck4", "Mares", "Puck 4", MATCH_EXACT⟩,
  -- Cressi dive computers
  ⟨"CARESIO_", "Cressi", "Cartesio", MATCH_PREFIX⟩,
  ⟨"GOA_", "Cressi", "Goa", MATCH_PREFIX⟩,
  ⟨"Leonardo", "Cressi", "Leonardo 2.0", MATCH_CONTAINS⟩,
  ⟨"Donatello", "Cressi", "Donatello", MATCH_CONTAINS⟩,
  ⟨"Michelangelo", "Cressi", "Michelangelo", MATCH_CONTAINS⟩,
  ⟨"Neon", "Cressi", "Neon", MATCH_CONTAINS⟩,
  ⟨"Nepto", "Cressi", "Nepto", MATCH_CONTAINS⟩,
  -- Heinrichs Weikamp dive computers
  ⟨"OSTC 3", "Heinrichs Weikamp", "OSTC Plus", MATCH_EXACT⟩,
  ⟨"OSTC s#", "Heinrichs Weikamp", "OSTC Sport", MATCH_EXACT⟩,
  ⟨"OSTC s ", "Heinrichs Weikamp", "OSTC Sport", MATCH_EXACT⟩,
  ⟨"OSTC 4-", "Heinrichs Weikamp", "OSTC 4", MATCH_EXACT⟩,
  ⟨"OSTC 2-", "Heinrichs Weikamp", "OSTC 2N", MATCH_EXACT⟩,
  ⟨"OSTC + ", "Heinrichs Weikamp", "OSTC 2", MATCH_EXACT⟩,
  ⟨"OSTC", "Heinrichs Weikamp", "OSTC 2", MATCH_EXACT⟩,
  -- Deepblu dive computers
  ⟨"COSMIQ", "Deepblu", "Cosmiq+", MATCH_EXACT⟩,
  -- Oceans dive computers
  ⟨"S1", "Oceans", "S1", MATCH_EXACT⟩,
  -- McLean dive computers
  ⟨"McLean Extreme", "McLean", "Extreme", MATCH_EXACT⟩,
  -- Tecdiving dive computers
  ⟨"DiveComputer", "Tecdiving", "DiveComputer.eu", MATCH_EXACT⟩,
  -- Ratio dive computers
  ⟨"DS", "Ratio", "iX3M 2021 GPS Easy", MATCH_EXACT⟩,
  ⟨"IX5M", "Ratio", "iX3M 2021 GPS Easy", MATCH_EXACT⟩,
  ⟨"RATIO-", "Ratio", "iX3M 2021 GPS Easy", MATCH_EXACT⟩]

/-- The `switch` of `find_descriptor_by_name` that computes `matches` for one rule. -/
def pattern_matches (p : name_pattern) (name : String) : Bool :=
  match p.match_type with
  | MATCH_EXACT => (strstr name.data p.pfx.data).isSome
  | MATCH_PREFIX => decide (strncmp name.data p.pfx.data (strlen p.pfx.data) = 0)
  | MATCH_CONTAINS => (strstr name.data p.pfx.data).isSome

/-- The test of the inner loop of phase 1:
`vendor && product && strcmp(vendor, rule.vendor) == 0 && strcmp(product, rule.product) == 0`. -/
def vendor_product_equal (d : dc_descriptor_t) (p : name_pattern) : Bool :=
  match d.vendor, d.product with
  | some v, some pr =>
    decide (strcmp v.data p.vendor.data = 0) && decide (strcmp pr.data p.product.data = 0)
  | _, _ => false

/-- The inner `while` loop of phase 1: the catalog scan for the vendor and product of rule `p`
with iterator `it`. -/
def find_descriptor_by_name_scan (it : Nat) (p : name_pattern) :
    Nat → List dc_descriptor_t → Option (Nat × dc_descriptor_t) × List Event
  | _, [] => (none, [])
  | pos, d :: rest =>
    if vendor_product_equal d p then
      (some (pos, d), [Event.descriptor_next it pos])
    else
      let r := find_descriptor_by_name_scan it p (pos + 1) rest
      (r.1, Event.descriptor_next it pos :: Event.descriptor_free it pos :: r.2)

/-- The test of the loop of phase 2:
`(transports & DC_TRANSPORT_BLE) && dc_descriptor_filter(descriptor, DC_TRANSPORT_BLE, name)`. -/
def ble_filter_accepts (d : dc_descriptor_t) (name : String) : Bool :=
  decide (d.transports &&& DC_TRANSPORT_BLE ≠ 0) && d.filter DC_TRANSPORT_BLE name

/-- The `while` loop of phase 2 with iterator `it`. -/
def find_descriptor_by_name_filter (it : Nat) (name : String) :
    Nat → List dc_descriptor_t → Option (Nat × dc_descriptor_t) × List Event
  | _, [] => (none, [])
  | pos, d :: rest =>
    if ble_filter_accepts d name then
      (some (pos, d), [Event.descriptor_next it pos])
    else
      let r := find_descriptor_by_name_filter it name (pos + 1) rest
      (r.1, Event.descriptor_next it pos :: Event.descriptor_free it pos :: r.2)

/-- Phase 2 of `find_descriptor_by_name` (the code after the `for` loop); `k` iterators have
been created before and `rc` is what `dc_descriptor_iterator` returns now. -/
def find_descriptor_by_name_fallback (rc : dc_status_t) (k : Nat)
    (catalog : List dc_descriptor_t) (name : String) : find_result :=
  if rc ≠ DC_STATUS_SUCCESS then
    { rc := rc, out := none, ref := none, log := [] }
  else
    match find_descriptor_by_name_filter k name 0 catalog with
    | (some (pos, d), evs) =>
      { rc := DC_STATUS_SUCCESS, out := some d, ref := some (k, pos),
        log := Event.iterator_new k :: evs ++ [Event.iterator_free k] }
    | (none, evs) =>
      { rc := DC_STATUS_UNSUPPORTED, out := none, ref := none,
        log := Event.iterator_new k :: evs ++ [Event.iterator_free k] }

/-- The `for` loop of `find_descriptor_by_name` from the rules still to be tried, followed by
phase 2. `iter_rc k` is what the call of `dc_descriptor_iterator` returns after `k` iterators
have been created by this call of the resolver. -/
def find_descriptor_by_name_from (iter_rc : Nat → dc_status_t) (catalog : List dc_descriptor_t)
    (name : String) : Nat → List name_pattern → find_result
  | k, [] => find_descriptor_by_name_fallback (iter_rc k) k catalog name
  | k, p :: ps =>
    if pattern_matches p name then
      if iter_rc k ≠ DC_STATUS_SUCCESS then
        { rc := iter_rc k, out := none, ref := none, log := [] }
      else
        match find_descriptor_by_name_scan k p 0 catalog with
        | (some (pos, d), evs) =>
          { rc := DC_STATUS_SUCCESS, out := some d, ref := some (k, pos),
            log := Event.iterator_new k :: evs ++ [Event.iterator_free k] }
        | (none, evs) =>
          let r := find_descriptor_by_name_from iter_rc catalog name (k + 1) ps
          { r with log := Event.iterator_new k :: evs ++ [Event.iterator_free k] ++ r.log }
    else
      find_descriptor_by_name_from iter_rc catalog name k ps

/-- The function `find_descriptor_by_name(&descriptor, name)`. -/
def find_descriptor_by_name (iter_rc : Nat → dc_status_t) (catalog : List dc_descriptor_t)
    (name : String) : find_result :=
  find_descriptor_by_name_from iter_rc catalog name 0 name_patterns

/-! ## External calls -/

/-- What the external calls made during one session open return. Each field is named after the
call it stands for. The engine writes a handle through its output pointer only when it returns
success, so `context` and `device` are the handles written in that case. -/
structure externals where
  /-- Status of `dc_context_new`. -/
  dc_context_new : dc_status_t
  /-- The context handle `dc_context_new` writes on success. -/
  context : Nat
  /-- Status of `dc_descriptor_iterator`. -/
  dc_descriptor_iterator : dc_status_t
  /-- Result of `createBLEObject`: a connection handle, or `none` for `NULL`. -/
  createBLEObject : Option Nat
  /-- Result of `connectToBLEDevice(io, devaddr)`. -/
  connectToBLEDevice : Nat → String → Bool
  /-- Whether `malloc(sizeof(ble_stream_t))` returns memory. -/
  malloc_stream : Bool
  /-- Status of `ble_close(io)`. -/
  ble_close : Nat → dc_status_t
  /-- Status of `dc_device_open`. -/
  dc_device_open : dc_status_t
  /-- The device handle `dc_device_open` writes on success. -/
  device : Nat
  /-- Status of `dc_device_set_events`. -/
  dc_device_set_events : dc_status_t
  /-- Whether `malloc(len)` for the model string returns memory. -/
  malloc_name : Bool

/-! ## Stream adapter -/

/-- The adapter `ble_stream_t`: the `context` and `transport` of its base, and the connection
handle `ble_object`. The vtable of the base is always `ble_iostream_vtable`, whose `close` slot
is `ble_stream_close`. -/
structure ble_stream_t where
  context : Option Nat
  transport : Nat
  ble_object : Nat
  deriving DecidableEq

/-- The function `ble_iostream_create(out, context, bleobj)`: the status, what is written to
`*out` (`none`: nothing written) and the events. -/
def ble_iostream_create (malloc_ok : Bool) (context : Option Nat) (bleobj : Nat) :
    dc_status_t × Option ble_stream_t × List Event :=
  if !malloc_ok then
    (DC_STATUS_NOMEMORY, none, [])
  else
    (DC_STATUS_SUCCESS,
      some { context := context, transport := DC_TRANSPORT_BLE, ble_object := bleobj },
      [Event.stream_malloc])

/-- The function `ble_stream_close(iostream)`; `ble_close` gives the status the transport
reports. -/
def ble_stream_close (ble_close : Nat → dc_status_t) (s : ble_stream_t) :
    dc_status_t × List Event :=
  let rc := ble_close s.ble_object
  (rc, [Event.ble_close s.ble_object, Event.ble_free s.ble_object, Event.stream_free])

/-- The function `ble_packet_open(iostream, context, devaddr, userdata)`: the status, what is
written to `*iostream` and the events. The parameter `userdata` is not used by the function. -/
def ble_packet_open (x : externals) (context : Option Nat) (devaddr : String) :
    dc_status_t × Option ble_stream_t × List Event :=
  match x.createBLEObject with
  | none => (DC_STATUS_NOMEMORY, none, [Event.ble_initialize])
  | some io =>
    if !x.connectToBLEDevice io devaddr then
      ( DC_STATUS_IO, none,
        [Event.ble_initialize, Event.ble_create io, Event.ble_connect io, Event.ble_free io])
    else
      let created := ble_iostream_create x.malloc_stream context io
      if created.1 ≠ DC_STATUS_SUCCESS then
        (created.1, created.2.1,
          [Event.ble_initialize, Event.ble_create io, Event.ble_connect io] ++ created.2.2
            ++ [Event.ble_free io])
      else
        (DC_STATUS_SUCCESS, created.2.1,
          [Event.ble_initialize, Event.ble_create io, Event.ble_connect io] ++ created.2.2)

/-! ## Device session -/

/-- Payload of a device-info event (`dc_event_devinfo_t`). -/
structure dc_event_devinfo_t where
  model : Nat
  firmware : Nat
  serial : Nat
  deriving DecidableEq

/-- Payload of a progress event (`dc_event_progress_t`). -/
structure dc_event_progress_t where
  current : Nat
  maximum : Nat
  deriving DecidableEq

/-- Modelled from the spec: the session record `device_data_t`. Its declaration is in
`configuredc.h`, which is not among the source files; the fields are the ones that
`configuredc.c` reads and writes: engine context, selected descriptor, stream adapter, device
handle, last device-info and progress events, captured fingerprint with its length, model
string, and the fingerprint-lookup callback with its context. -/
structure device_data_t where
  context : Option Nat
  descriptor : Option dc_descriptor_t
  iostream : Option ble_stream_t
  device : Option Nat
  devinfo : dc_event_devinfo_t
  have_devinfo : Nat
  progress : dc_event_progress_t
  have_progress : Nat
  fingerprint : Option (List Nat)
  fsize : Nat
  model : Option String
  lookup_fingerprint : Option (Option Nat → String → String → Option (List Nat) × Nat)
  fingerprint_context : Option Nat

/-- The record after `memset(data, 0, sizeof(device_data_t))` or `calloc`. -/
def device_data_zero : device_data_t :=
  { context := none, descriptor := none, iostream := none, device := none,
    devinfo := ⟨0, 0, 0⟩, have_devinfo := 0, progress := ⟨0, 0⟩, have_progress := 0,
    fingerprint := none, fsize := 0, model := none, lookup_fingerprint := none,
    fingerprint_context := none }

/-- Modelled from the spec: the engine's `dc_iostream_close`, which is not among the source
files. Close is the single exit point of the adapter: the engine dispatches to the `close` slot
of the stream's vtable, here `ble_stream_close`. -/
def dc_iostream_close (ble_close : Nat → dc_status_t) (s : ble_stream_t) :
    dc_status_t × List Event :=
  let r := ble_stream_close ble_close s
  (r.1, Event.iostream_close :: r.2)

/-- The function `close_device_data(data)`: the record afterwards and the events. `none` is a
`NULL` pointer. -/
def close_device_data (ble_close : Nat → dc_status_t) :
    Option device_data_t → Option device_data_t × List Event
  | none => (none, [])
  | some data =>
    let log1 := if data.fingerprint.isSome then [Event.fingerprint_free] else []
    let data := if data.fingerprint.isSome then { data with fingerprint := none, fsize := 0 }
      else data
    let log2 := if data.model.isSome then [Event.model_free] else []
    let data := if data.model.isSome then { data with model := none } else data
    let log3 := match data.device with
      | some dv => [Event.device_close dv]
      | none => []
    let data := { data with device := none }
    let log4 := match data.iostream with
      | some s => (dc_iostream_close ble_close s).2
      | none => []
    let data := { data with iostream := none }
    let log5 := match data.context with
      | some c => [Event.context_free c]
      | none => []
    let data := { data with context := none }
    (some { data with descriptor := none }, log1 ++ log2 ++ log3 ++ log4 ++ log5)

/-- The `snprintf(buffer, size, "%s %s", a, b)` of the source: the characters stored in the
buffer before the terminating NUL, at most `size - 1` of them. -/
def snprintf_s_s (size : Nat) (a b : String) : String :=
  ⟨(a.data ++ ' ' :: b.data).take (size - 1)⟩

/-- The function `open_ble_device(data, devaddr, family, model)`: the status, the record
`*data` afterwards and the events. `data = none` and `devaddr = none` are `NULL` pointers. -/
def open_ble_device (x : externals) (catalog : List dc_descriptor_t)
    (data : Option device_data_t) (devaddr : Option String) (family model : Nat) :
    dc_status_t × Option device_data_t × List Event :=
  match data, devaddr with
  | none, _ => (DC_STATUS_INVALIDARGS, none, [])
  | some data, none => (DC_STATUS_INVALIDARGS, some data, [])
  | some _, some addr =>
    -- Initialize all pointers to NULL
    let data := device_data_zero
    -- Create context
    if x.dc_context_new ≠ DC_STATUS_SUCCESS then
      (x.dc_context_new, some data, [])
    else
      let data := { data with context := some x.context }
      let log := [Event.context_new x.context]
      -- Get descriptor for the device
      let found := find_descriptor_by_model x.dc_descriptor_iterator catalog family model
      let log := log ++ found.log
      if found.rc ≠ DC_STATUS_SUCCESS then
        let closed := close_device_data x.ble_close (some data)
        (found.rc, closed.1, log ++ closed.2)
      else
        -- Create BLE iostream
        let opened := ble_packet_open x data.context addr
        let data := { data with iostream := match opened.2.1 with
          | some s => some s
          | none => data.iostream }
        let log := log ++ opened.2.2
        if opened.1 ≠ DC_STATUS_SUCCESS then
          let closed := close_device_data x.ble_close (some data)
          (opened.1, closed.1, log ++ closed.2)
        else if x.dc_device_open ≠ DC_STATUS_SUCCESS then
          -- dc_device_open failed: no device handle was written
          let closed := close_device_data x.ble_close (some data)
          (x.dc_device_open, closed.1, log ++ closed.2)
        else
          let data := { data with device := some x.device }
          let log := log ++ [Event.device_open x.device]
          -- Set up event handler
          if x.dc_device_set_events ≠ DC_STATUS_SUCCESS then
            let closed := close_device_data x.ble_close (some data)
            (x.dc_device_set_events, closed.1, log ++ closed.2)
          else
            -- Store the descriptor
            let data := { data with descriptor := found.out }
            -- Store model string from descriptor
            match found.out with
            | some descriptor =>
              match descriptor.vendor, descriptor.product with
              | some vendor, some product =>
                let len := strlen vendor.data + strlen product.data + 2
                if x.malloc_name then
                  (DC_STATUS_SUCCESS,
                    some { data with model := some (snprintf_s_s len vendor product) },
                    log ++ [Event.model_malloc])
                else
                  (DC_STATUS_SUCCESS, some data, log)
              | _, _ => (DC_STATUS_SUCCESS, some data, log)
            | none => (DC_STATUS_SUCCESS, some data, log)

/-- The function `get_device_info_from_name(name, family, model)`: the status, the pair
written to `*family` and `*model`, and the events. -/
def get_device_info_from_name (iter_rc : Nat → dc_status_t) (catalog : List dc_descriptor_t)
    (name : String) : dc_status_t × Option (Nat × Nat) × List Event :=
  let found := find_descriptor_by_name iter_rc catalog name
  if found.rc ≠ DC_STATUS_SUCCESS then
    (found.rc, none, found.log)
  else
    match found.out with
    | some descriptor =>
      let freed := match found.ref with
        | some (it, pos) => [Event.descriptor_free it pos]
        | none => []
      (DC_STATUS_SUCCESS, some (descriptor.type, descriptor.model), found.log ++ freed)
    -- not reached (`find_descriptor_by_name_from_out_isSome`): success comes with a descriptor
    | none => (DC_STATUS_SUCCESS, none, found.log)

/-- The function
`open_ble_device_with_identification(out_data, name, address, stored_family, stored_model)`:
the status, the session written to `*out_data` (`none`: nothing written) and the events.
`x1` holds the external results during the open with the stored pair, `name_iter_rc` those of
the name resolution, `x2` those of the open with the resolved pair. Iterator numbers in the
events restart with each resolver call. -/
def open_ble_device_with_identification (calloc_ok : Bool) (x1 : externals)
    (name_iter_rc : Nat → dc_status_t) (x2 : externals) (catalog : List dc_descriptor_t)
    (name : String) (address : Option String) (stored_family stored_model : Nat) :
    dc_status_t × Option device_data_t × List Event :=
  if !calloc_ok then
    (DC_STATUS_NOMEMORY, none, [])
  else
    let data := device_data_zero
    let log := [Event.data_calloc]
    -- Try stored configuration first if provided
    let first := if stored_family ≠ DC_FAMILY_NULL ∧ stored_model ≠ 0 then
        some (open_ble_device x1 catalog (some data) address stored_family stored_model)
      else none
    match first with
    | some (DC_STATUS_SUCCESS, opened, evs) => (DC_STATUS_SUCCESS, opened, log ++ evs)
    | _ =>
      let data := match first with
        | some (_, after, _) => after
        | none => some data
      let log := match first with
        | some (_, _, evs) => log ++ evs
        | none => log
      -- Fall back to identification if stored config failed or wasn't provided
      let info := get_device_info_from_name name_iter_rc catalog name
      let log := log ++ info.2.2
      if info.1 ≠ DC_STATUS_SUCCESS then
        (info.1, none, log ++ [Event.data_free])
      else
        match info.2.1 with
        | some (family, model) =>
          let second := open_ble_device x2 catalog data address family model
          if second.1 ≠ DC_STATUS_SUCCESS then
            (second.1, none, log ++ second.2.2 ++ [Event.data_free])
          else
            (DC_STATUS_SUCCESS, second.2.1, log ++ second.2.2)
        -- not reached (`get_device_info_from_name_pair_written`): success comes with the pair
        | none => (DC_STATUS_INVALIDARGS, none, log ++ [Event.data_free])

/-- Position of a release event in the teardown order of `close_device_data`: the owned
memory blocks first, then the device, then the stream with its connection handle, then the
context. -/
def release_rank : Event → Nat
  | Event.fingerprint_free => 0
  | Event.model_free => 0
  | Event.device_close _ => 1
  | Event.iostream_close => 2
  | Event.ble_close _ => 2
  | Event.ble_free _ => 2
  | Event.stream_free => 2
  | Event.context_free _ => 3
  | _ => 4

/-- External results with which a session open succeeds at every step. -/
def externals_ok : externals :=
  { dc_context_new := DC_STATUS_SUCCESS, context := 1,
    dc_descriptor_iterator := DC_STATUS_SUCCESS, createBLEObject := some 7,
    connectToBLEDevice := fun _ _ => true, malloc_stream := true,
    ble_close := fun _ => DC_STATUS_SUCCESS, dc_device_open := DC_STATUS_SUCCESS, device := 9,
    dc_device_set_events := DC_STATUS_SUCCESS, malloc_name := true }

/-- External results with which a session open fails at the device-open step with an I/O
error, every earlier step succeeding. -/
def externals_device_open_fails : externals :=
  { externals_ok with dc_device_open := DC_STATUS_IO }

/-- External results with which a session open fails at the connect step. -/
def externals_connect_fails : externals :=
  { externals_ok with connectToBLEDevice := fun _ _ => false }

/-- The events of `close_device_data` on a record that holds the given fingerprint, model
string, device, stream and context, written out segment by segment. -/
def close_log (fp : Option (List Nat)) (mdl : Option String) (dev : Option Nat)
    (ios : Option ble_stream_t) (ctx : Option Nat) : List Event :=
  (if fp.isSome then [Event.fingerprint_free] else [])
    ++ (if mdl.isSome then [Event.model_free] else [])
    ++ (match dev with
        | some dv => [Event.device_close dv]
        | none => [])
    ++ (match ios with
        | some s => [Event.iostream_close, Event.ble_close s.ble_object,
            Event.ble_free s.ble_object, Event.stream_free]
        | none => [])
    ++ (match ctx with
        | some c => [Event.context_free c]
        | none => [])

/-- An event of a catalog iteration. -/
def is_catalog_event : Event → Bool
  | Event.iterator_new _ => true
  | Event.iterator_free _ => true
  | Event.descriptor_next _ _ => true
  | Event.descriptor_free _ _ => true
  | _ => false

/-- An event that records the creation of a catalog iterator. -/
def is_iterator_new : Event → Bool
  | Event.iterator_new _ => true
  | _ => false

/-- Number of catalog iterators a log shows as created. -/
def iterators_created (log : List Event) : Nat :=
  log.countP is_iterator_new

/-- The element `d` is the first one of `l`, in list order, that satisfies `P`. -/
def IsFirst {α : Type} (P : α → Prop) (l : List α) (d : α) : Prop :=
  ∃ pre post, l = pre ++ d :: post ∧ P d ∧ ∀ e ∈ pre, ¬ P e

/-- A small catalog with two entries that share one (family, model) pair. -/
def example_catalog : List dc_descriptor_t := [
  ⟨some "Shearwater", some "Petrel", 5, 3, 48, fun _ _ => false⟩,
  ⟨some "Shearwater", some "Petrel 2", 5, 3, 48, fun _ _ => true⟩,
  ⟨some "Cressi", some "Cartesio", 7, 1, 32, fun _ _ => false⟩]

/-! ## Balance of catalog iterators and descriptors -/

/-- The common shape of the three catalog loops: the scan with iterator `it` for the first
descriptor that `test` accepts. -/
def catalog_scan (test : dc_descriptor_t → Bool) (it : Nat) :
    Nat → List dc_descriptor_t → Option (Nat × dc_descriptor_t) × List Event
  | _, [] => (none, [])
  | pos, d :: rest =>
    if test d then
      (some (pos, d), [Event.descriptor_next it pos])
    else
      let r := catalog_scan test it (pos + 1) rest
      (r.1, Event.descriptor_next it pos :: Event.descriptor_free it pos :: r.2)

/-- What one catalog scan with iterator `it` from position `pos0` leaves behind: only yields and
frees of descriptors of `it` at positions from `pos0` on, each descriptor yielded at most once,
and freed as often as yielded except for the returned one, which is yielded and not freed. -/
def scan_balanced (it pos0 : Nat) (l : List dc_descriptor_t)
    (res : Option (Nat × dc_descriptor_t)) (evs : List Event) : Prop :=
  (∀ e ∈ evs, ∃ pos, pos0 ≤ pos ∧
    (e = Event.descriptor_next it pos ∨ e = Event.descriptor_free it pos)) ∧
  (∀ pos, evs.count (Event.descriptor_next it pos) ≤ 1) ∧
  (∀ pos, evs.count (Event.descriptor_next it pos)
    = evs.count (Event.descriptor_free it pos)
      + (if res.map Prod.fst = some pos then 1 else 0)) ∧
  (∀ pos d, res = some (pos, d) → pos0 ≤ pos ∧ l[pos - pos0]? = some d)

/-- The iterator an event of a catalog iteration belongs to. -/
def event_iterator : Event → Option Nat
  | Event.iterator_new it => some it
  | Event.iterator_free it => some it
  | Event.descriptor_next it _ => some it
  | Event.descriptor_free it _ => some it
  | _ => none

/-- Balance of a resolver log whose iterators are numbered from `k` on: only events of catalog
iterations, every iterator created at most once and freed as often as created, every descriptor
yielded at most once and freed as often as yielded, except the descriptor `ref`, which is
yielded once more than freed. -/
def log_balanced (k : Nat) (ref : Option (Nat × Nat)) (log : List Event) : Prop :=
  (∀ e ∈ log, ∃ it, event_iterator e = some it ∧ k ≤ it) ∧
  (∀ it, log.count (Event.iterator_new it) ≤ 1 ∧
    log.count (Event.iterator_free it) = log.count (Event.iterator_new it)) ∧
  (∀ it pos, log.count (Event.descriptor_next it pos) ≤ 1 ∧
    log.count (Event.descriptor_next it pos)
      = log.count (Event.descriptor_free it pos) + (if ref = some (it, pos) then 1 else 0))

/-- Balance of the catalog resources after a resolver call, `yields it` being the sequence of
descriptors that iterator `it` yields. Every iterator that was created has been freed exactly
once; every descriptor an iteration yielded has been freed exactly once, except the descriptor
returned to the caller, which has not been freed. A descriptor is returned exactly when the
status is success, and it is the descriptor its iterator yielded at the recorded position. -/
def resources_balanced (yields : Nat → List dc_descriptor_t) (r : find_result) : Prop :=
  (∀ e ∈ r.log, is_catalog_event e = true) ∧
  (∀ it, r.log.count (Event.iterator_new it) ≤ 1 ∧
    r.log.count (Event.iterator_free it) = r.log.count (Event.iterator_new it)) ∧
  (∀ it pos, r.log.count (Event.descriptor_next it pos) ≤ 1 ∧
    r.log.count (Event.descriptor_free it pos)
      = if r.ref = some (it, pos) then 0 else r.log.count (Event.descriptor_next it pos)) ∧
  (r.rc = DC_STATUS_SUCCESS → ∃ it pos d, r.ref = some (it, pos) ∧ r.out = some d ∧
    (yields it)[pos]? = some d ∧ r.log.count (Event.descriptor_next it pos) = 1 ∧
    r.log.count (Event.descriptor_free it pos) = 0) ∧
  (r.rc ≠ DC_STATUS_SUCCESS → r.ref = none ∧ r.out = none)

/-- What the induction over the rules carries: the log is balanced with iterators numbered from
`k` on, a returned descriptor is one that such an iterator yielded, and there is one exactly
when the status is success. -/
def result_balanced_from (yields : Nat → List dc_descriptor_t) (k : Nat) (r : find_result) :
    Prop :=
  log_balanced k r.ref r.log ∧
  (∀ it pos, r.ref = some (it, pos) → k ≤ it) ∧
  (r.rc = DC_STATUS_SUCCESS → ∃ it pos d, r.ref = some (it, pos) ∧ r.out = some d ∧
    (yields it)[pos]? = some d) ∧
  (r.rc ≠ DC_STATUS_SUCCESS → r.ref = none ∧ r.out = none)

/-- The `for` loop and phase 2 of `find_descriptor_by_name` when iterations may end early:
`yields k` is the sequence of descriptors that the iterator with number `k` yields before
`dc_iterator_next` returns a status other than success (the end of the catalog or an error).
With the same sequence for every iterator this is `find_descriptor_by_name_from`. -/
def find_descriptor_by_name_from_yields (iter_rc : Nat → dc_status_t)
    (yields : Nat → List dc_descriptor_t) (name : String) :
    Nat → List name_pattern → find_result
  | k, [] => find_descriptor_by_name_fallback (iter_rc k) k (yields k) name
  | k, p :: ps =>
    if pattern_matches p name then
      if iter_rc k ≠ DC_STATUS_SUCCESS then
        { rc := iter_rc k, out := none, ref := none, log := [] }
      else
        match find_descriptor_by_name_scan k p 0 (yields k) with
        | (some (pos, d), evs) =>
          { rc := DC_STATUS_SUCCESS, out := some d, ref := some (k, pos),
            log := Event.iterator_new k :: evs ++ [Event.iterator_free k] }
        | (none, evs) =>
          let r := find_descriptor_by_name_from_yields iter_rc yields name (k + 1) ps
          { r with log := Event.iterator_new k :: evs ++ [Event.iterator_free k] ++ r.log }
    else
      find_descriptor_by_name_from_yields iter_rc yields name k ps

/-- The function `find_descriptor_by_name(&descriptor, name)` when iterations may end early. -/
def find_descriptor_by_name_yields (iter_rc : Nat → dc_status_t)
    (yields : Nat → List dc_descriptor_t) (name : String) : find_result :=
  find_descriptor_by_name_from_yields iter_rc yields name 0 name_patterns

/-! ## Display name, device events -/

/-- The function `get_formatted_device_name(name)`: the returned string (`none` is `NULL`) and
the events. `malloc_ok` tells whether `malloc(len)` returns memory. -/
def get_formatted_device_name (iter_rc : Nat → dc_status_t) (malloc_ok : Bool)
    (catalog : List dc_descriptor_t) (name : String) : Option String × List Event :=
  let found := find_descriptor_by_name iter_rc catalog name
  if found.rc ≠ DC_STATUS_SUCCESS then
    (none, found.log)
  else
    match found.out with
    | some descriptor =>
      let built := match descriptor.vendor, descriptor.product with
        | some vendor, some product =>
          let len := strlen vendor.data + strlen product.data + 2
          if malloc_ok then
            (some (snprintf_s_s len vendor product), [Event.model_malloc])
          else
            (none, [])
        | _, _ => (none, [])
      let freed := match found.ref with
        | some (it, pos) => [Event.descriptor_free it pos]
        | none => []
      (built.1, found.log ++ built.2 ++ freed)
    -- not reached (`find_descriptor_by_name_from_out_isSome`): success comes with a descriptor
    | none => (none, found.log)

/-- The digits of the `printf` conversion `%x` of an unsigned value `n`: lowercase hexadecimal,
most significant digit first, no leading zero, one digit for zero. The first argument bounds the
number of digits; `n + 1` is always enough. -/
def utoa_hex : Nat → Nat → List Char
  | 0, _ => []
  | fuel + 1, n =>
    if n < 16 then [Nat.digitChar n] else utoa_hex fuel (n / 16) ++ [Nat.digitChar (n % 16)]

/-- The text of the `printf` conversion `%08x`: the digits of `%x`, padded on the left with
`'0'` to a width of at least 8. -/
def format_08x (n : Nat) : List Char :=
  List.replicate (8 - (utoa_hex (n + 1) n).length) '0' ++ utoa_hex (n + 1) n

/-- The `snprintf(buffer, size, "%08x", n)` of the source: the characters stored in the buffer
before the terminating NUL, at most `size - 1` of them. -/
def snprintf_08x (size : Nat) (n : Nat) : String :=
  ⟨(format_08x n).take (size - 1)⟩

/-- The value of a hexadecimal digit, `none` for any other character. -/
def hex_value (c : Char) : Option Nat :=
  if '0' ≤ c ∧ c ≤ '9' then some (c.toNat - 48)
  else if 'a' ≤ c ∧ c ≤ 'f' then some (c.toNat - 87)
  else if 'A' ≤ c ∧ c ≤ 'F' then some (c.toNat - 55)
  else none

/-- Reading a string of hexadecimal digits as a base-16 number, continuing from the value
`acc` of the digits read so far; `none` when a character is not a hexadecimal digit. -/
def parse_hex_from : Nat → List Char → Option Nat
  | acc, [] => some acc
  | acc, c :: cs =>
    match hex_value c with
    | some d => parse_hex_from (acc * 16 + d) cs
    | none => none

/-- Reading a string of hexadecimal digits as a base-16 number. -/
def parse_hex (s : List Char) : Option Nat := parse_hex_from 0 s

/-- An event the protocol engine delivers to `event_cb`: the event type together with the
payload its `data` pointer refers to. The types other than device-info and progress (waiting,
clock, vendor) are `other`. -/
inductive dc_event_t
  | DC_EVENT_DEVINFO (devinfo : dc_event_devinfo_t)
  | DC_EVENT_PROGRESS (progress : dc_event_progress_t)
  | other

/-- What a call of `event_cb` leaves behind: the session record afterwards, the arguments of
the call of the fingerprint-lookup callback (context, model string, serial string) when it was
called, and the arguments of `dc_device_set_fingerprint` (device, bytes, size) when it was
called. -/
structure event_cb_result where
  devdata : Option device_data_t
  lookup : Option (Option Nat × String × String)
  set_fingerprint : Option (Nat × List Nat × Nat)

/-- The function `event_cb(device, event, data, userdata)`. The lookup callback returns the
fingerprint pointer and the size it stores through `&fsize`, which starts at zero. -/
def event_cb (device : Nat) (event : dc_event_t) (userdata : Option device_data_t) :
    event_cb_result :=
  match userdata with
  | none => { devdata := none, lookup := none, set_fingerprint := none }
  | some devdata =>
    match event with
    | dc_event_t.DC_EVENT_DEVINFO devinfo =>
      let devdata := { devdata with devinfo := devinfo, have_devinfo := 1 }
      -- Look up fingerprint using callback if available
      match devdata.lookup_fingerprint, devdata.model with
      | some lookup_fingerprint, some model =>
        let serial := snprintf_08x 16 devinfo.serial
        let found := lookup_fingerprint devdata.fingerprint_context model serial
        let call := some (devdata.fingerprint_context, model, serial)
        match found.1 with
        | some fingerprint =>
          if found.2 > 0 then
            { devdata := some { devdata with fingerprint := some fingerprint, fsize := found.2 },
              lookup := call, set_fingerprint := some (device, fingerprint, found.2) }
          else
            { devdata := some devdata, lookup := call, set_fingerprint := none }
        | none => { devdata := some devdata, lookup := call, set_fingerprint := none }
      | _, _ => { devdata := some devdata, lookup := none, set_fingerprint := none }
    | dc_event_t.DC_EVENT_PROGRESS progress =>
      { devdata := some { devdata with progress := progress, have_progress := 1 },
        lookup := none, set_fingerprint := none }
    | dc_event_t.other => { devdata := some devdata, lookup := none, set_fingerprint := none }

/-- A catalog with one BLE descriptor for every rule of the table, in table order, carrying the
vendor and product of the rule. -/
def rule_catalog : List dc_descriptor_t :=
  name_patterns.map fun p =>
    { vendor := some p.vendor, product := some p.product, type := 1, model := 1,
      transports := DC_TRANSPORT_BLE, filter := fun _ _ => false }

/-- A catalog with the single descriptor "Suunto" "EON Steel". -/
def suunto_catalog : List dc_descriptor_t :=
  [⟨some "Suunto", some "EON Steel", 3, 0, 32, fun _ _ => false⟩]

/-! # Theorems -/

/-! ## Strings -/

theorem strcmp_eq_zero_iff (a b : List Char) : strcmp a b = 0 ↔ a = b := by
  induction a generalizing b with
  | nil => cases b <;> simp [strcmp]
  | cons c s ih =>
    cases b with
    | nil => simp [strcmp]
    | cons d p =>
      by_cases hcd : c = d
      · simp [strcmp, hcd, ih]
      · by_cases hlt : c < d <;> simp [strcmp, hcd, hlt]

theorem strncmp_strlen_eq_zero_iff (s p : List Char) :
    strncmp s p (strlen p) = 0 ↔ p <+: s := by
  induction p generalizing s with
  | nil => simp [strncmp, strlen]
  | cons d p ih =>
    cases s with
    | nil => simp [strncmp, strlen]
    | cons c s =>
      have ih2 := ih s
      simp only [strlen] at ih2
      by_cases hcd : c = d
      · simp [strncmp, strlen, hcd, ih2, List.cons_prefix_cons]
      · have hdc : ¬ d = c := fun h => hcd h.symm
        by_cases hlt : c < d <;> simp [strncmp, strlen, hcd, hdc, hlt, List.cons_prefix_cons]

theorem strstr_isSome_iff (s p : List Char) : (strstr s p).isSome = true ↔ p <:+: s := by
  induction s with
  | nil =>
    by_cases h : strncmp [] p (strlen p) = 0
    · simp only [strstr, h, if_true, Option.isSome_some, true_iff]
      exact ((strncmp_strlen_eq_zero_iff [] p).1 h).isInfix
    · have hp : ¬ p <+: [] := fun hp => h ((strncmp_strlen_eq_zero_iff [] p).2 hp)
      simp only [strstr, h, if_false, Option.isSome_none, Bool.false_eq_true, false_iff]
      intro hin
      exact hp (List.infix_nil.1 hin ▸ List.prefix_refl _)
  | cons c s ih =>
    by_cases h : strncmp (c :: s) p (strlen p) = 0
    · simp only [strstr, h, if_true, Option.isSome_some, true_iff]
      exact ((strncmp_strlen_eq_zero_iff (c :: s) p).1 h).isInfix
    · have hp : ¬ p <+: c :: s := fun hp => h ((strncmp_strlen_eq_zero_iff (c :: s) p).2 hp)
      simp only [strstr, h, if_false, ih, List.infix_cons_iff]
      tauto

theorem vendor_product_equal_iff (d : dc_descriptor_t) (p : name_pattern) :
    vendor_product_equal d p = true ↔ d.vendor = some p.vendor ∧ d.product = some p.product := by
  unfold vendor_product_equal
  cases hv : d.vendor with
  | none => simp
  | some v =>
    cases hp : d.product with
    | none => simp
    | some pr =>
      simp only [Bool.and_eq_true, decide_eq_true_eq, strcmp_eq_zero_iff, Option.some.injEq]
      constructor
      · rintro ⟨h1, h2⟩
        exact ⟨String.ext h1, String.ext h2⟩
      · rintro ⟨h1, h2⟩
        exact ⟨congrArg String.data h1, congrArg String.data h2⟩

/-! ## First elements -/

theorem IsFirst.find?_eq {α : Type} {P : α → Prop} {l : List α} {d : α} (test : α → Bool)
    (htest : ∀ e, test e = true ↔ P e) (h : IsFirst P l d) : l.find? test = some d := by
  obtain ⟨pre, post, rfl, hd, hpre⟩ := h
  induction pre with
  | nil => simp [List.find?_cons, (htest d).2 hd]
  | cons e pre ih =>
    have he : test e = false := by
      cases hte : test e with
      | false => rfl
      | true => exact absurd ((htest e).1 hte) (hpre e (List.mem_cons_self _ _))
    simp only [List.cons_append, List.find?_cons, he]
    exact ih fun x hx => hpre x (List.mem_cons_of_mem _ hx)

theorem find?_eq_none_of_forall {α : Type} {P : α → Prop} {l : List α} (test : α → Bool)
    (htest : ∀ e, test e = true ↔ P e) : l.find? test = none ↔ ∀ e ∈ l, ¬ P e := by
  simp only [List.find?_eq_none, htest]

/-! ## The catalog loops -/

theorem find_descriptor_by_model_loop_fst (it family model pos : Nat)
    (l : List dc_descriptor_t) :
    (find_descriptor_by_model_loop it family model pos l).1.map Prod.snd
      = l.find? (fun d => decide (d.type = family ∧ d.model = model)) := by
  induction l generalizing pos with
  | nil => rfl
  | cons d rest ih =>
    by_cases h : d.type = family ∧ d.model = model
    · simp [find_descriptor_by_model_loop, List.find?_cons, h]
    · simp [find_descriptor_by_model_loop, List.find?_cons, h, ih]

theorem find_descriptor_by_name_scan_fst (it : Nat) (p : name_pattern) (pos : Nat)
    (l : List dc_descriptor_t) :
    (find_descriptor_by_name_scan it p pos l).1.map Prod.snd
      = l.find? (fun d => vendor_product_equal d p) := by
  induction l generalizing pos with
  | nil => rfl
  | cons d rest ih =>
    cases h : vendor_product_equal d p
    · simp [find_descriptor_by_name_scan, List.find?_cons, h, ih]
    · simp [find_descriptor_by_name_scan, List.find?_cons, h]

theorem find_descriptor_by_name_scan_iterators (it : Nat) (p : name_pattern) (pos : Nat)
    (l : List dc_descriptor_t) :
    iterators_created (find_descriptor_by_name_scan it p pos l).2 = 0 := by
  induction l generalizing pos with
  | nil => rfl
  | cons d rest ih =>
    have ih2 := ih (pos + 1)
    simp only [iterators_created] at ih2 ⊢
    cases h : vendor_product_equal d p
    · simp [find_descriptor_by_name_scan, h, is_iterator_new, ih2]
    · simp [find_descriptor_by_name_scan, h, is_iterator_new]

theorem find_descriptor_by_name_filter_fst (it : Nat) (name : String) (pos : Nat)
    (l : List dc_descriptor_t) :
    (find_descriptor_by_name_filter it name pos l).1.map Prod.snd
      = l.find? (fun d => ble_filter_accepts d name) := by
  induction l generalizing pos with
  | nil => rfl
  | cons d rest ih =>
    cases h : ble_filter_accepts d name
    · simp [find_descriptor_by_name_filter, List.find?_cons, h, ih]
    · simp [find_descriptor_by_name_filter, List.find?_cons, h]

/-! ## Resolver by family and model: first match or unsupported -/

/-- C1: when the catalog iterator is created, `find_descriptor_by_model` returns success together
with the first descriptor, in catalog order, whose family and model both equal the query, and it
returns `DC_STATUS_UNSUPPORTED` exactly when no descriptor of the catalog has that pair. -/
theorem find_descriptor_by_model_first_match (iter_rc : dc_status_t)
    (h_iter : iter_rc = DC_STATUS_SUCCESS) (catalog : List dc_descriptor_t)
    (family model : Nat) :
    (∀ d, IsFirst (fun e => e.type = family ∧ e.model = model) catalog d →
      (find_descriptor_by_model iter_rc catalog family model).rc = DC_STATUS_SUCCESS ∧
      (find_descriptor_by_model iter_rc catalog family model).out = some d) ∧
    ((find_descriptor_by_model iter_rc catalog family model).rc = DC_STATUS_UNSUPPORTED ↔
      ∀ e ∈ catalog, ¬ (e.type = family ∧ e.model = model)) := by
  subst h_iter
  have hfst := find_descriptor_by_model_loop_fst 0 family model 0 catalog
  rcases hloop : find_descriptor_by_model_loop 0 family model 0 catalog with ⟨x, evs⟩
  rw [hloop] at hfst
  have htest : ∀ e : dc_descriptor_t,
      decide (e.type = family ∧ e.model = model) = true ↔ (e.type = family ∧ e.model = model) :=
    fun e => by simp
  constructor
  · intro d hd
    rw [IsFirst.find?_eq _ htest hd] at hfst
    rcases x with _ | ⟨pos, d2⟩
    · simp at hfst
    · simp only [Option.map_some', Option.some.injEq] at hfst
      subst hfst
      simp [find_descriptor_by_model, hloop]
  · rcases x with _ | ⟨pos, d⟩
    · have hnone := (find?_eq_none_of_forall _ htest).1 hfst.symm
      simp only [find_descriptor_by_model, hloop, ne_eq, not_true_eq_false, if_false, true_iff]
      exact hnone
    · have hmem := List.mem_of_find?_eq_some hfst.symm
      have hd := List.find?_some hfst.symm
      simp only [find_descriptor_by_model, hloop, ne_eq, not_true_eq_false, if_false,
        false_iff, reduceCtorEq]
      intro hall
      exact hall d hmem (by simpa using hd)

/-- C1, on the example catalog with the query (5, 3): the first of the two entries with that
pair is returned. -/
theorem find_descriptor_by_model_first_match_witness :
    (∀ d, IsFirst (fun e => e.type = 5 ∧ e.model = 3) example_catalog d →
      (find_descriptor_by_model DC_STATUS_SUCCESS example_catalog 5 3).rc = DC_STATUS_SUCCESS ∧
      (find_descriptor_by_model DC_STATUS_SUCCESS example_catalog 5 3).out = some d) ∧
    ((find_descriptor_by_model DC_STATUS_SUCCESS example_catalog 5 3).rc = DC_STATUS_UNSUPPORTED ↔
      ∀ e ∈ example_catalog, ¬ (e.type = 5 ∧ e.model = 3)) :=
  find_descriptor_by_model_first_match DC_STATUS_SUCCESS rfl example_catalog 5 3

/-! ## Resolver by name -/

/-- Phase 1 with a hit: the rules before the hit rule that match the name have no catalog entry
and are passed over; the scan for the hit rule returns its first catalog entry. -/
theorem find_descriptor_by_name_from_hit (iter_rc : Nat → dc_status_t)
    (h_iter : ∀ k, iter_rc k = DC_STATUS_SUCCESS) (catalog : List dc_descriptor_t)
    (name : String) (p : name_pattern) (post : List name_pattern) (d : dc_descriptor_t)
    (hp : pattern_matches p name = true)
    (hd : catalog.find? (fun e => vendor_product_equal e p) = some d)
    (pre : List name_pattern) (k : Nat)
    (hpre : ∀ q ∈ pre, pattern_matches q name = true →
      catalog.find? (fun e => vendor_product_equal e q) = none) :
    (find_descriptor_by_name_from iter_rc catalog name k (pre ++ p :: post)).rc
        = DC_STATUS_SUCCESS ∧
    (find_descriptor_by_name_from iter_rc catalog name k (pre ++ p :: post)).out = some d ∧
    iterators_created (find_descriptor_by_name_from iter_rc catalog name k (pre ++ p :: post)).log
        = (pre.filter fun q => pattern_matches q name).length + 1 := by
  induction pre generalizing k with
  | nil =>
    have hfst := find_descriptor_by_name_scan_fst k p 0 catalog
    have hit := find_descriptor_by_name_scan_iterators k p 0 catalog
    rcases hscan : find_descriptor_by_name_scan k p 0 catalog with ⟨x, evs⟩
    rw [hscan] at hfst hit
    simp only at hit
    rw [hd] at hfst
    rcases x with _ | ⟨pos, d2⟩
    · simp at hfst
    · simp only [Option.map_some', Option.some.injEq] at hfst
      subst hfst
      simp only [iterators_created] at hit
      simp [find_descriptor_by_name_from, hp, h_iter, hscan, iterators_created,
        is_iterator_new, hit]
  | cons q pre ih =>
    have ih2 := fun k => ih k fun r hr => hpre r (List.mem_cons_of_mem _ hr)
    cases hq : pattern_matches q name with
    | false => simpa [find_descriptor_by_name_from, hq] using ih2 k
    | true =>
      have hfst := find_descriptor_by_name_scan_fst k q 0 catalog
      have hit := find_descriptor_by_name_scan_iterators k q 0 catalog
      rcases hscan : find_descriptor_by_name_scan k q 0 catalog with ⟨x, evs⟩
      rw [hscan] at hfst hit
      simp only at hit
      rw [hpre q (List.mem_cons_self _ _) hq] at hfst
      simp only [Option.map_eq_none'] at hfst
      subst hfst
      simp only [iterators_created] at hit
      obtain ⟨h1, h2, h3⟩ := ih2 (k + 1)
      simp only [iterators_created] at h3
      refine ⟨?_, ?_, ?_⟩
      · simpa [find_descriptor_by_name_from, hq, h_iter, hscan] using h1
      · simpa [find_descriptor_by_name_from, hq, h_iter, hscan] using h2
      · simp [find_descriptor_by_name_from, hq, h_iter, hscan, iterators_created,
          is_iterator_new, hit, h3]

/-- Phase 1 without a hit falls through to phase 2, whose result is the first descriptor that
supports BLE and whose filter accepts the name. -/
theorem find_descriptor_by_name_from_no_hit (iter_rc : Nat → dc_status_t)
    (h_iter : ∀ k, iter_rc k = DC_STATUS_SUCCESS) (catalog : List dc_descriptor_t)
    (name : String) (rules : List name_pattern) (k : Nat)
    (hrules : ∀ q ∈ rules, pattern_matches q name = true →
      catalog.find? (fun e => vendor_product_equal e q) = none) :
    (find_descriptor_by_name_from iter_rc catalog name k rules).out
        = catalog.find? (fun e => ble_filter_accepts e name) ∧
    (find_descriptor_by_name_from iter_rc catalog name k rules).rc
        = (if (catalog.find? (fun e => ble_filter_accepts e name)).isSome then DC_STATUS_SUCCESS
           else DC_STATUS_UNSUPPORTED) := by
  induction rules generalizing k with
  | nil =>
    have hfst := find_descriptor_by_name_filter_fst k name 0 catalog
    rcases hloop : find_descriptor_by_name_filter k name 0 catalog with ⟨x, evs⟩
    rw [hloop] at hfst
    rw [← hfst]
    rcases x with _ | ⟨pos, d⟩ <;>
      simp [find_descriptor_by_name_from, find_descriptor_by_name_fallback, h_iter, hloop]
  | cons q rules ih =>
    have ih2 := fun k => ih k fun r hr => hrules r (List.mem_cons_of_mem _ hr)
    cases hq : pattern_matches q name with
    | false => simpa [find_descriptor_by_name_from, hq] using ih2 k
    | true =>
      have hfst := find_descriptor_by_name_scan_fst k q 0 catalog
      rcases hscan : find_descriptor_by_name_scan k q 0 catalog with ⟨x, evs⟩
      rw [hscan] at hfst
      rw [hrules q (List.mem_cons_self _ _) hq] at hfst
      simp only [Option.map_eq_none'] at hfst
      subst hfst
      simpa [find_descriptor_by_name_from, hq, h_iter, hscan] using ih2 (k + 1)

/-- Rules that do not match the name are passed over without touching the catalog. -/
theorem find_descriptor_by_name_from_skip (iter_rc : Nat → dc_status_t)
    (catalog : List dc_descriptor_t) (name : String) (rules : List name_pattern) (k : Nat)
    (hrules : ∀ q ∈ rules, pattern_matches q name = false) :
    find_descriptor_by_name_from iter_rc catalog name k rules
      = find_descriptor_by_name_fallback (iter_rc k) k catalog name := by
  induction rules with
  | nil => rfl
  | cons q rules ih =>
    have hq := hrules q (List.mem_cons_self _ _)
    simp only [find_descriptor_by_name_from, hq, Bool.false_eq_true, if_false]
    exact ih fun r hr => hrules r (List.mem_cons_of_mem _ hr)

/-- A catalog that has an entry with the vendor and product of a rule has a first such entry. -/
theorem exists_find?_vendor_product (catalog : List dc_descriptor_t) (p : name_pattern)
    (h : ∃ e ∈ catalog, e.vendor = some p.vendor ∧ e.product = some p.product) :
    ∃ d, catalog.find? (fun e => vendor_product_equal e p) = some d ∧
      d.vendor = some p.vendor ∧ d.product = some p.product := by
  obtain ⟨e, he, hvp⟩ := h
  cases hfind : catalog.find? (fun e => vendor_product_equal e p) with
  | none =>
    have := (List.find?_eq_none.1 hfind) e he
    exact absurd ((vendor_product_equal_iff e p).2 hvp) this
  | some d =>
    have hd : vendor_product_equal d p = true :=
      List.find?_some (p := fun e => vendor_product_equal e p) hfind
    exact ⟨d, rfl, (vendor_product_equal_iff d p).1 hd⟩

/-- C2: when some naming rule matches the name and has a catalog descriptor with its vendor
and product, `find_descriptor_by_name` returns success with the first such descriptor of the
earliest such rule. Earlier rules that match the name but have no catalog entry are passed over
without an error, and the catalog is iterated once for each matching rule up to the hit and not
again: later rules and phase 2 create no iterator. -/
theorem find_descriptor_by_name_earliest_rule_hit (iter_rc : Nat → dc_status_t)
    (h_iter : ∀ k, iter_rc k = DC_STATUS_SUCCESS) (catalog : List dc_descriptor_t)
    (name : String) (pre post : List name_pattern) (p : name_pattern) (d : dc_descriptor_t)
    (htable : name_patterns = pre ++ p :: post)
    (hp : pattern_matches p name = true)
    (hd : IsFirst (fun e => e.vendor = some p.vendor ∧ e.product = some p.product) catalog d)
    (hpre : ∀ q ∈ pre, pattern_matches q name = true →
      ∀ e ∈ catalog, ¬ (e.vendor = some q.vendor ∧ e.product = some q.product)) :
    (find_descriptor_by_name iter_rc catalog name).rc = DC_STATUS_SUCCESS ∧
    (find_descriptor_by_name iter_rc catalog name).out = some d ∧
    iterators_created (find_descriptor_by_name iter_rc catalog name).log
      = (pre.filter fun q => pattern_matches q name).length + 1 := by
  unfold find_descriptor_by_name
  rw [htable]
  refine find_descriptor_by_name_from_hit iter_rc h_iter catalog name p post d hp
    (IsFirst.find?_eq _ (fun e => vendor_product_equal_iff e p) hd) pre 0 ?_
  intro q hq hqm
  exact (find?_eq_none_of_forall _ (fun e => vendor_product_equal_iff e q)).2 (hpre q hq hqm)

/-- C2, on the example catalog and the name "Petrel 3": the rule "Petrel 3" matches but the
catalog has no "Petrel 3", so the rule "Petrel" supplies the descriptor, after two iterations. -/
theorem find_descriptor_by_name_earliest_rule_hit_witness :
    (find_descriptor_by_name (fun _ => DC_STATUS_SUCCESS) example_catalog "Petrel 3").rc
      = DC_STATUS_SUCCESS ∧
    (find_descriptor_by_name (fun _ => DC_STATUS_SUCCESS) example_catalog "Petrel 3").out
      = some ⟨some "Shearwater", some "Petrel 2", 5, 3, 48, fun _ _ => true⟩ ∧
    iterators_created
        (find_descriptor_by_name (fun _ => DC_STATUS_SUCCESS) example_catalog "Petrel 3").log
      = ((name_patterns.take 3).filter fun q => pattern_matches q "Petrel 3").length + 1 :=
  find_descriptor_by_name_earliest_rule_hit (fun _ => DC_STATUS_SUCCESS) (fun _ => rfl)
    example_catalog "Petrel 3" (name_patterns.take 3) (name_patterns.drop 4)
    ⟨"Petrel", "Shearwater", "Petrel 2", MATCH_EXACT⟩
    ⟨some "Shearwater", some "Petrel 2", 5, 3, 48, fun _ _ => true⟩
    (by decide) (by decide)
    ⟨[⟨some "Shearwater", some "Petrel", 5, 3, 48, fun _ _ => false⟩],
      [⟨some "Cressi", some "Cartesio", 7, 1, 32, fun _ _ => false⟩], rfl, ⟨rfl, rfl⟩,
      by decide⟩
    (by decide)

/-- C3: when no naming rule produces a hit, `find_descriptor_by_name` returns success with the
first descriptor, in catalog order, whose transport bitmask includes BLE and whose name filter,
called with the BLE tag and the name, accepts; it returns `DC_STATUS_UNSUPPORTED` exactly when
the catalog has no such descriptor. -/
theorem find_descriptor_by_name_fallback_when_no_hit (iter_rc : Nat → dc_status_t)
    (h_iter : ∀ k, iter_rc k = DC_STATUS_SUCCESS) (catalog : List dc_descriptor_t)
    (name : String)
    (hno : ∀ q ∈ name_patterns, pattern_matches q name = true →
      ∀ e ∈ catalog, ¬ (e.vendor = some q.vendor ∧ e.product = some q.product)) :
    (∀ d, IsFirst (fun e => e.transports &&& DC_TRANSPORT_BLE ≠ 0 ∧
          e.filter DC_TRANSPORT_BLE name = true) catalog d →
      (find_descriptor_by_name iter_rc catalog name).rc = DC_STATUS_SUCCESS ∧
      (find_descriptor_by_name iter_rc catalog name).out = some d) ∧
    ((find_descriptor_by_name iter_rc catalog name).rc = DC_STATUS_UNSUPPORTED ↔
      ∀ e ∈ catalog, ¬ (e.transports &&& DC_TRANSPORT_BLE ≠ 0 ∧
          e.filter DC_TRANSPORT_BLE name = true)) := by
  have htest : ∀ e : dc_descriptor_t, ble_filter_accepts e name = true ↔
      (e.transports &&& DC_TRANSPORT_BLE ≠ 0 ∧ e.filter DC_TRANSPORT_BLE name = true) :=
    fun e => by simp [ble_filter_accepts]
  obtain ⟨hout, hrc⟩ := find_descriptor_by_name_from_no_hit iter_rc h_iter catalog name
    name_patterns 0 fun q hq hqm =>
      (find?_eq_none_of_forall _ (fun e => vendor_product_equal_iff e q)).2 (hno q hq hqm)
  unfold find_descriptor_by_name
  constructor
  · intro d hd
    have hfind := IsFirst.find?_eq _ htest hd
    rw [hrc, hout, hfind]
    simp
  · rw [hrc, ← find?_eq_none_of_forall _ htest]
    cases catalog.find? (fun e => ble_filter_accepts e name) <;> simp

/-- C3, on the example catalog and the name "Teric": the rule "Teric" matches but the catalog
has no "Teric" entry, so no rule produces a hit, and the second entry is the first one that
supports BLE and whose filter accepts. -/
theorem find_descriptor_by_name_fallback_when_no_hit_witness :
    (∀ d, IsFirst (fun e => e.transports &&& DC_TRANSPORT_BLE ≠ 0 ∧
          e.filter DC_TRANSPORT_BLE "Teric" = true) example_catalog d →
      (find_descriptor_by_name (fun _ => DC_STATUS_SUCCESS) example_catalog "Teric").rc
        = DC_STATUS_SUCCESS ∧
      (find_descriptor_by_name (fun _ => DC_STATUS_SUCCESS) example_catalog "Teric").out
        = some d) ∧
    ((find_descriptor_by_name (fun _ => DC_STATUS_SUCCESS) example_catalog "Teric").rc
        = DC_STATUS_UNSUPPORTED ↔
      ∀ e ∈ example_catalog, ¬ (e.transports &&& DC_TRANSPORT_BLE ≠ 0 ∧
          e.filter DC_TRANSPORT_BLE "Teric" = true)) :=
  find_descriptor_by_name_fallback_when_no_hit (fun _ => DC_STATUS_SUCCESS) (fun _ => rfl)
    example_catalog "Teric" (by decide)

/-- C4: with a catalog that has a "Shearwater" "Petrel 2" descriptor, the name
"Shearwater Petrel 2" resolves to a descriptor with that vendor and product, in one iteration.
The rule "Petrel" is at position 3 of the table, ahead of the rule "Perdix" at position 4, and
none of the three rules before it matches the name. -/
theorem find_descriptor_by_name_shearwater_petrel_2 (iter_rc : Nat → dc_status_t)
    (h_iter : ∀ k, iter_rc k = DC_STATUS_SUCCESS) (catalog : List dc_descriptor_t)
    (hcat : ∃ e ∈ catalog, e.vendor = some "Shearwater" ∧ e.product = some "Petrel 2") :
    (find_descriptor_by_name iter_rc catalog "Shearwater Petrel 2").rc = DC_STATUS_SUCCESS ∧
    (∃ d, (find_descriptor_by_name iter_rc catalog "Shearwater Petrel 2").out = some d ∧
      d.vendor = some "Shearwater" ∧ d.product = some "Petrel 2") ∧
    iterators_created (find_descriptor_by_name iter_rc catalog "Shearwater Petrel 2").log = 1 ∧
    name_patterns[3]? = some ⟨"Petrel", "Shearwater", "Petrel 2", MATCH_EXACT⟩ ∧
    name_patterns[4]? = some ⟨"Perdix", "Shearwater", "Perdix", MATCH_EXACT⟩ ∧
    pattern_matches ⟨"Petrel", "Shearwater", "Petrel 2", MATCH_EXACT⟩ "Shearwater Petrel 2"
      = true ∧
    (∀ q ∈ name_patterns.take 3, pattern_matches q "Shearwater Petrel 2" = false) := by
  obtain ⟨d, hfind, hv, hpr⟩ :=
    exists_find?_vendor_product catalog ⟨"Petrel", "Shearwater", "Petrel 2", MATCH_EXACT⟩ hcat
  have hearlier : ∀ q ∈ name_patterns.take 3,
      pattern_matches q "Shearwater Petrel 2" = false := by decide
  have key := find_descriptor_by_name_from_hit iter_rc h_iter catalog "Shearwater Petrel 2"
    ⟨"Petrel", "Shearwater", "Petrel 2", MATCH_EXACT⟩ (name_patterns.drop 4) d (by decide) hfind
    (name_patterns.take 3) 0
    (fun q hq hqm => absurd hqm (by rw [hearlier q hq]; exact Bool.false_ne_true))
  have htable : name_patterns.take 3
      ++ ⟨"Petrel", "Shearwater", "Petrel 2", MATCH_EXACT⟩ :: name_patterns.drop 4
      = name_patterns := by decide
  have hcount : ((name_patterns.take 3).filter
      fun q => pattern_matches q "Shearwater Petrel 2").length + 1 = 1 := by decide
  rw [htable, hcount] at key
  exact ⟨key.1, ⟨d, key.2.1, hv, hpr⟩, key.2.2, by decide, by decide, by decide, hearlier⟩

/-- C4, on the example catalog. -/
theorem find_descriptor_by_name_shearwater_petrel_2_witness :
    (find_descriptor_by_name (fun _ => DC_STATUS_SUCCESS) example_catalog
      "Shearwater Petrel 2").rc = DC_STATUS_SUCCESS :=
  (find_descriptor_by_name_shearwater_petrel_2 (fun _ => DC_STATUS_SUCCESS) (fun _ => rfl)
    example_catalog
    ⟨⟨some "Shearwater", some "Petrel 2", 5, 3, 48, fun _ _ => true⟩, by simp [example_catalog],
      rfl, rfl⟩).1

/-- C5: with a catalog that has a "Cressi" "Cartesio" descriptor, the name "CARESIO_1234"
resolves to a descriptor with that vendor and product through the prefix rule "CARESIO_" at
position 25 of the table, no earlier rule matching the name. For the name "XCARESIO_1234" the
prefix rule does not match, no rule of the table matches, and the result is the one of
phase 2. -/
theorem find_descriptor_by_name_caresio (iter_rc : Nat → dc_status_t)
    (h_iter : ∀ k, iter_rc k = DC_STATUS_SUCCESS) (catalog : List dc_descriptor_t) :
    ((∃ e ∈ catalog, e.vendor = some "Cressi" ∧ e.product = some "Cartesio") →
      (find_descriptor_by_name iter_rc catalog "CARESIO_1234").rc = DC_STATUS_SUCCESS ∧
      (∃ d, (find_descriptor_by_name iter_rc catalog "CARESIO_1234").out = some d ∧
        d.vendor = some "Cressi" ∧ d.product = some "Cartesio") ∧
      iterators_created (find_descriptor_by_name iter_rc catalog "CARESIO_1234").log = 1) ∧
    name_patterns[25]? = some ⟨"CARESIO_", "Cressi", "Cartesio", MATCH_PREFIX⟩ ∧
    pattern_matches ⟨"CARESIO_", "Cressi", "Cartesio", MATCH_PREFIX⟩ "CARESIO_1234" = true ∧
    (∀ q ∈ name_patterns.take 25, pattern_matches q "CARESIO_1234" = false) ∧
    pattern_matches ⟨"CARESIO_", "Cressi", "Cartesio", MATCH_PREFIX⟩ "XCARESIO_1234" = false ∧
    (strstr "XCARESIO_1234".data "CARESIO_".data).isSome = true ∧
    (∀ q ∈ name_patterns, pattern_matches q "XCARESIO_1234" = false) ∧
    find_descriptor_by_name iter_rc catalog "XCARESIO_1234"
      = find_descriptor_by_name_fallback DC_STATUS_SUCCESS 0 catalog "XCARESIO_1234" := by
  have hearlier : ∀ q ∈ name_patterns.take 25, pattern_matches q "CARESIO_1234" = false := by
    decide
  have hnone : ∀ q ∈ name_patterns, pattern_matches q "XCARESIO_1234" = false := by decide
  refine ⟨?_, by decide, by decide, hearlier, by decide, by decide, hnone, ?_⟩
  · intro hcat
    obtain ⟨d, hfind, hv, hpr⟩ :=
      exists_find?_vendor_product catalog ⟨"CARESIO_", "Cressi", "Cartesio", MATCH_PREFIX⟩ hcat
    have key := find_descriptor_by_name_from_hit iter_rc h_iter catalog "CARESIO_1234"
      ⟨"CARESIO_", "Cressi", "Cartesio", MATCH_PREFIX⟩ (name_patterns.drop 26) d (by decide)
      hfind (name_patterns.take 25) 0
      (fun q hq hqm => absurd hqm (by rw [hearlier q hq]; exact Bool.false_ne_true))
    have htable : name_patterns.take 25
        ++ ⟨"CARESIO_", "Cressi", "Cartesio", MATCH_PREFIX⟩ :: name_patterns.drop 26
        = name_patterns := by decide
    have hcount : ((name_patterns.take 25).filter
        fun q => pattern_matches q "CARESIO_1234").length + 1 = 1 := by decide
    rw [htable, hcount] at key
    exact ⟨key.1, ⟨d, key.2.1, hv, hpr⟩, key.2.2⟩
  · have h := find_descriptor_by_name_from_skip iter_rc catalog "XCARESIO_1234" name_patterns 0
      hnone
    rw [h_iter 0] at h
    exact h

/-- C5, on the example catalog, which has a "Cressi" "Cartesio" entry. -/
theorem find_descriptor_by_name_caresio_witness :
    (find_descriptor_by_name (fun _ => DC_STATUS_SUCCESS) example_catalog "CARESIO_1234").rc
      = DC_STATUS_SUCCESS :=
  ((find_descriptor_by_name_caresio (fun _ => DC_STATUS_SUCCESS) (fun _ => rfl)
    example_catalog).1
    ⟨⟨some "Cressi", some "Cartesio", 7, 1, 32, fun _ _ => false⟩, by simp [example_catalog],
      rfl, rfl⟩).1

/-! ## Stream adapter and connection establishment -/

/-- C8: for a stream adapter built by `ble_iostream_create` around the connection handle `h`,
one call of `ble_stream_close` asks the transport to close `h` once, then releases `h` once, then
frees the adapter, touches no other handle, and returns the status the transport close
reported. -/
theorem ble_stream_close_releases_handle_once (malloc_ok : Bool) (context : Option Nat)
    (h : Nat) (ble_close : Nat → dc_status_t) (s : ble_stream_t)
    (hs : (ble_iostream_create malloc_ok context h).2.1 = some s) :
    (ble_stream_close ble_close s).1 = ble_close h ∧
    (ble_stream_close ble_close s).2
      = [Event.ble_close h, Event.ble_free h, Event.stream_free] ∧
    (ble_stream_close ble_close s).2.count (Event.ble_close h) = 1 ∧
    (ble_stream_close ble_close s).2.count (Event.ble_free h) = 1 ∧
    (∀ h2, h2 ≠ h → (ble_stream_close ble_close s).2.count (Event.ble_close h2) = 0 ∧
      (ble_stream_close ble_close s).2.count (Event.ble_free h2) = 0) := by
  have hobj : s.ble_object = h := by
    cases malloc_ok
    · simp [ble_iostream_create] at hs
    · simp only [ble_iostream_create, Bool.not_true, Bool.false_eq_true, if_false,
        Option.some.injEq] at hs
      rw [← hs]
  refine ⟨?_, ?_, ?_, ?_, ?_⟩
  · simp [ble_stream_close, hobj]
  · simp [ble_stream_close, hobj]
  · simp [ble_stream_close, hobj]
  · simp [ble_stream_close, hobj]
  · intro h2 hne
    have hne2 : ¬ h = h2 := fun e => hne e.symm
    simp [ble_stream_close, hobj, hne2, List.count_cons]

/-- C8, for an adapter around the handle 7 whose transport close reports an I/O error. -/
theorem ble_stream_close_releases_handle_once_witness :
    (ble_stream_close (fun _ => DC_STATUS_IO) ⟨some 1, DC_TRANSPORT_BLE, 7⟩).1 = DC_STATUS_IO ∧
    (ble_stream_close (fun _ => DC_STATUS_IO) ⟨some 1, DC_TRANSPORT_BLE, 7⟩).2
      = [Event.ble_close 7, Event.ble_free 7, Event.stream_free] :=
  have h := ble_stream_close_releases_handle_once true (some 1) 7 (fun _ => DC_STATUS_IO)
    ⟨some 1, DC_TRANSPORT_BLE, 7⟩ rfl
  ⟨h.1, h.2.1⟩

/-- C9: the four outcomes of `ble_packet_open`. Without a connection object it returns
`DC_STATUS_NOMEMORY` and has created and released nothing. When the connect fails it returns
the I/O error status and has released the connection object once. When the adapter cannot be
built it returns the constructor's status and has released the connection object once. On
success the stream written to the output holds the connection object, which has not been closed
or released. On every failure nothing is written to the output. -/
theorem ble_packet_open_outcomes (x : externals) (context : Option Nat) (devaddr : String) :
    (x.createBLEObject = none →
      ble_packet_open x context devaddr = (DC_STATUS_NOMEMORY, none, [Event.ble_initialize])) ∧
    (∀ io, x.createBLEObject = some io → x.connectToBLEDevice io devaddr = false →
      (ble_packet_open x context devaddr).1 = DC_STATUS_IO ∧
      (ble_packet_open x context devaddr).2.1 = none ∧
      (ble_packet_open x context devaddr).2.2.count (Event.ble_create io) = 1 ∧
      (ble_packet_open x context devaddr).2.2.count (Event.ble_free io) = 1 ∧
      (ble_packet_open x context devaddr).2.2.count Event.stream_malloc = 0) ∧
    (∀ io, x.createBLEObject = some io → x.connectToBLEDevice io devaddr = true →
      (ble_iostream_create x.malloc_stream context io).1 ≠ DC_STATUS_SUCCESS →
      (ble_packet_open x context devaddr).1 = (ble_iostream_create x.malloc_stream context io).1 ∧
      (ble_packet_open x context devaddr).2.1 = none ∧
      (ble_packet_open x context devaddr).2.2.count (Event.ble_create io) = 1 ∧
      (ble_packet_open x context devaddr).2.2.count (Event.ble_free io) = 1 ∧
      (ble_packet_open x context devaddr).2.2.count Event.stream_malloc = 0) ∧
    (∀ io, x.createBLEObject = some io → x.connectToBLEDevice io devaddr = true →
      (ble_iostream_create x.malloc_stream context io).1 = DC_STATUS_SUCCESS →
      (ble_packet_open x context devaddr).1 = DC_STATUS_SUCCESS ∧
      (∃ s, (ble_packet_open x context devaddr).2.1 = some s ∧ s.ble_object = io) ∧
      (ble_packet_open x context devaddr).2.2.count (Event.ble_create io) = 1 ∧
      (ble_packet_open x context devaddr).2.2.count (Event.ble_close io) = 0 ∧
      (ble_packet_open x context devaddr).2.2.count (Event.ble_free io) = 0) ∧
    ((ble_packet_open x context devaddr).1 ≠ DC_STATUS_SUCCESS →
      (ble_packet_open x context devaddr).2.1 = none) := by
  refine ⟨?_, ?_, ?_, ?_, ?_⟩
  · intro hc
    simp [ble_packet_open, hc]
  · intro io hc hconn
    simp [ble_packet_open, hc, hconn]
  · intro io hc hconn hst
    cases hm : x.malloc_stream
    · simp [ble_packet_open, hc, hconn, ble_iostream_create, hm]
    · simp [ble_iostream_create, hm] at hst
  · intro io hc hconn hst
    cases hm : x.malloc_stream
    · simp [ble_iostream_create, hm] at hst
    · simp [ble_packet_open, hc, hconn, ble_iostream_create, hm]
  · intro hfail
    cases hc : x.createBLEObject with
    | none => simp [ble_packet_open, hc]
    | some io =>
      cases hconn : x.connectToBLEDevice io devaddr
      · simp [ble_packet_open, hc, hconn]
      · cases hm : x.malloc_stream
        · simp [ble_packet_open, hc, hconn, ble_iostream_create, hm]
        · simp [ble_packet_open, hc, hconn, ble_iostream_create, hm] at hfail

/-- C9, when the connect to the address fails: the handle 7 is released once. -/
theorem ble_packet_open_outcomes_witness :
    (ble_packet_open { externals_ok with connectToBLEDevice := fun _ _ => false } (some 1)
      "addr").1 = DC_STATUS_IO ∧
    (ble_packet_open { externals_ok with connectToBLEDevice := fun _ _ => false } (some 1)
      "addr").2.2.count (Event.ble_free 7) = 1 :=
  have h := (ble_packet_open_outcomes { externals_ok with connectToBLEDevice := fun _ _ => false }
    (some 1) "addr").2.1 7 rfl rfl
  ⟨h.1, h.2.2.2.1⟩

/-! ## Session teardown -/

theorem close_device_data_some (ble_close : Nat → dc_status_t) (data : device_data_t) :
    close_device_data ble_close (some data) =
      (some { data with
          fingerprint := none
          fsize := if data.fingerprint.isSome then 0 else data.fsize
          model := none, device := none, iostream := none, context := none,
          descriptor := none },
        close_log data.fingerprint data.model data.device data.iostream data.context) := by
  rcases data with ⟨ctx, desc, ios, dev, di, hdi, pr, hpr, fp, fs, mdl, lf, fc⟩
  cases fp <;> cases mdl <;> cases ios <;> rfl

theorem close_log_count (fp : Option (List Nat)) (mdl : Option String) (dev : Option Nat)
    (ios : Option ble_stream_t) (ctx : Option Nat) (e : Event) :
    (close_log fp mdl dev ios ctx).count e
      = (if fp.isSome ∧ Event.fingerprint_free = e then 1 else 0)
        + (if mdl.isSome ∧ Event.model_free = e then 1 else 0)
        + (if dev.map Event.device_close = some e then 1 else 0)
        + ((if ios.isSome ∧ Event.iostream_close = e then 1 else 0)
          + (if ios.map (fun s => Event.ble_close s.ble_object) = some e then 1 else 0)
          + (if ios.map (fun s => Event.ble_free s.ble_object) = some e then 1 else 0)
          + (if ios.isSome ∧ Event.stream_free = e then 1 else 0))
        + (if ctx.map Event.context_free = some e then 1 else 0) := by
  unfold close_log
  simp only [List.count_append]
  congr 1
  congr 1
  congr 1
  congr 1
  · cases fp <;> simp [List.count_cons]
  · cases mdl <;> simp [List.count_cons]
  · cases dev <;> simp [List.count_cons]
  · cases ios with
    | none => simp
    | some s =>
      simp only [List.count_cons, List.count_nil, beq_iff_eq, Option.isSome_some, true_and,
        Option.map_some', Option.some.injEq]
      ring
  · cases ctx <;> simp [List.count_cons]

theorem close_log_rank (fp : Option (List Nat)) (mdl : Option String) (dev : Option Nat)
    (ios : Option ble_stream_t) (ctx : Option Nat) :
    ∀ e ∈ close_log fp mdl dev ios ctx, release_rank e ≤ 3 := by
  unfold close_log
  cases fp <;> cases mdl <;> cases dev <;> cases ios <;> cases ctx <;> simp [release_rank]

theorem close_log_pairwise (fp : Option (List Nat)) (mdl : Option String) (dev : Option Nat)
    (ios : Option ble_stream_t) (ctx : Option Nat) :
    (close_log fp mdl dev ios ctx).Pairwise (fun a b => release_rank a ≤ release_rank b) := by
  unfold close_log
  cases fp <;> cases mdl <;> cases dev <;> cases ios <;> cases ctx <;> simp [release_rank]

/-- C10: `close_device_data` on any session record releases each resource the record still
holds exactly once (fingerprint, model string, device, stream with its connection handle,
context) and nothing else, the device before the stream before the context, and leaves all
these fields and the descriptor field empty. A second call on the resulting record releases
nothing and leaves it unchanged, and a call on a `NULL` pointer does nothing. -/
theorem close_device_data_idempotent (ble_close ble_close2 : Nat → dc_status_t)
    (data : device_data_t) :
    (∃ closed log,
      close_device_data ble_close (some data) = (some closed, log) ∧
      closed.fingerprint = none ∧ closed.model = none ∧ closed.device = none ∧
      closed.iostream = none ∧ closed.context = none ∧ closed.descriptor = none ∧
      log.count Event.fingerprint_free = (if data.fingerprint.isSome then 1 else 0) ∧
      log.count Event.model_free = (if data.model.isSome then 1 else 0) ∧
      (∀ dv, log.count (Event.device_close dv) = if data.device = some dv then 1 else 0) ∧
      log.count Event.iostream_close = (if data.iostream.isSome then 1 else 0) ∧
      (∀ h, log.count (Event.ble_close h)
        = if data.iostream.map (fun s => s.ble_object) = some h then 1 else 0) ∧
      (∀ h, log.count (Event.ble_free h)
        = if data.iostream.map (fun s => s.ble_object) = some h then 1 else 0) ∧
      log.count Event.stream_free = (if data.iostream.isSome then 1 else 0) ∧
      (∀ c, log.count (Event.context_free c) = if data.context = some c then 1 else 0) ∧
      (∀ e ∈ log, release_rank e ≤ 3) ∧
      log.Pairwise (fun a b => release_rank a ≤ release_rank b) ∧
      close_device_data ble_close2 (some closed) = (some closed, [])) ∧
    close_device_data ble_close none = (none, []) := by
  refine ⟨⟨_, _, close_device_data_some ble_close data, rfl, rfl, rfl, rfl, rfl, rfl, ?_⟩, rfl⟩
  refine ⟨?_, ?_, ?_, ?_, ?_, ?_, ?_, ?_, ?_, ?_, ?_⟩
  · rw [close_log_count]
    simp
  · rw [close_log_count]
    simp
  · intro dv
    rw [close_log_count]
    cases data.device <;> simp
  · rw [close_log_count]
    simp
  · intro h
    rw [close_log_count]
    cases data.iostream <;> simp
  · intro h
    rw [close_log_count]
    cases data.iostream <;> simp
  · rw [close_log_count]
    simp
  · intro c
    rw [close_log_count]
    cases data.context <;> simp
  · exact close_log_rank _ _ _ _ _
  · exact close_log_pairwise _ _ _ _ _
  · rw [close_device_data_some]
    rfl

/-! ## Session open -/

theorem IsFirst.of_find?_eq {α : Type} {P : α → Prop} {l : List α} {d : α} (test : α → Bool)
    (htest : ∀ e, test e = true ↔ P e) (h : l.find? test = some d) : IsFirst P l d := by
  obtain ⟨hd, pre, post, hl, hpre⟩ := List.find?_eq_some.1 h
  refine ⟨pre, post, hl, (htest d).1 hd, fun e he hP => ?_⟩
  have := hpre e he
  rw [(htest e).2 hP] at this
  simp at this

theorem find_descriptor_by_model_success (iter_rc : dc_status_t)
    (catalog : List dc_descriptor_t) (family model : Nat)
    (h : (find_descriptor_by_model iter_rc catalog family model).rc = DC_STATUS_SUCCESS) :
    ∃ d, (find_descriptor_by_model iter_rc catalog family model).out = some d ∧
      catalog.find? (fun e => decide (e.type = family ∧ e.model = model)) = some d := by
  have hfst := find_descriptor_by_model_loop_fst 0 family model 0 catalog
  by_cases hit : iter_rc = DC_STATUS_SUCCESS
  · rcases hloop : find_descriptor_by_model_loop 0 family model 0 catalog with ⟨x, evs⟩
    rw [hloop] at hfst
    rcases x with _ | ⟨pos, d⟩
    · simp [find_descriptor_by_model, hit, hloop] at h
    · exact ⟨d, by simp [find_descriptor_by_model, hit, hloop], by simpa using hfst.symm⟩
  · simp [find_descriptor_by_model, hit] at h

theorem open_ble_device_success (x : externals) (catalog : List dc_descriptor_t)
    (data : Option device_data_t) (devaddr : Option String) (family model : Nat)
    (h : (open_ble_device x catalog data devaddr family model).1 = DC_STATUS_SUCCESS) :
    (find_descriptor_by_model x.dc_descriptor_iterator catalog family model).rc
      = DC_STATUS_SUCCESS ∧
    ∃ opened, (open_ble_device x catalog data devaddr family model).2.1 = some opened ∧
      opened.descriptor
        = (find_descriptor_by_model x.dc_descriptor_iterator catalog family model).out := by
  unfold open_ble_device at h ⊢
  rcases data with _ | data
  · simp at h
  rcases devaddr with _ | addr
  · simp at h
  simp only at h ⊢
  split_ifs at h ⊢ with h1 h2 h3 h4 h5 h6
  all_goals first
    | exact absurd h h1
    | exact absurd h h2
    | exact absurd h h3
    | exact absurd h h4
    | exact absurd h h5
    | (refine ⟨not_not.1 h2, ?_⟩
       repeat' split
       all_goals exact ⟨_, rfl, rfl⟩)

theorem find_descriptor_by_model_loop_hit (it family model : Nat) (l : List dc_descriptor_t)
    (pos0 pos : Nat) (d : dc_descriptor_t) (evs : List Event)
    (h : find_descriptor_by_model_loop it family model pos0 l = (some (pos, d), evs)) :
    pos0 ≤ pos ∧ evs.count (Event.descriptor_next it pos) = 1 ∧
      evs.count (Event.descriptor_free it pos) = 0 := by
  induction l generalizing pos0 evs with
  | nil => simp [find_descriptor_by_model_loop] at h
  | cons e rest ih =>
    by_cases he : e.type = family ∧ e.model = model
    · simp only [find_descriptor_by_model_loop, he, and_self, if_true, Prod.mk.injEq,
        Option.some.injEq] at h
      obtain ⟨⟨rfl, rfl⟩, rfl⟩ := h
      simp
    · rcases hrest : find_descriptor_by_model_loop it family model (pos0 + 1) rest
        with ⟨x, evs2⟩
      simp only [find_descriptor_by_model_loop, he, if_false, hrest, Prod.mk.injEq] at h
      obtain ⟨rfl, rfl⟩ := h
      obtain ⟨hle, h1, h2⟩ := ih (pos0 + 1) evs2 hrest
      have hne : ¬ pos0 = pos := by omega
      refine ⟨by omega, ?_, ?_⟩
      · simpa [List.count_cons, hne] using h1
      · simpa [List.count_cons, hne] using h2

theorem find_descriptor_by_model_loop_events (it family model : Nat) (l : List dc_descriptor_t)
    (pos0 : Nat) :
    ∀ e ∈ (find_descriptor_by_model_loop it family model pos0 l).2,
      is_catalog_event e = true := by
  induction l generalizing pos0 with
  | nil => simp [find_descriptor_by_model_loop]
  | cons d rest ih =>
    by_cases hd : d.type = family ∧ d.model = model
    · simp [find_descriptor_by_model_loop, hd, is_catalog_event]
    · simpa [find_descriptor_by_model_loop, hd, is_catalog_event] using ih (pos0 + 1)

theorem find_descriptor_by_model_events (iter_rc : dc_status_t) (catalog : List dc_descriptor_t)
    (family model : Nat) :
    ∀ e ∈ (find_descriptor_by_model iter_rc catalog family model).log,
      is_catalog_event e = true := by
  have hloop := find_descriptor_by_model_loop_events 0 family model catalog 0
  by_cases hrc : iter_rc = DC_STATUS_SUCCESS
  · rcases hl : find_descriptor_by_model_loop 0 family model 0 catalog with ⟨x, evs⟩
    rw [hl] at hloop
    have hlog : (find_descriptor_by_model iter_rc catalog family model).log
        = Event.iterator_new 0 :: evs ++ [Event.iterator_free 0] := by
      rcases x with _ | ⟨pos, d⟩ <;> simp [find_descriptor_by_model, hrc, hl]
    rw [hlog]
    intro e he
    simp only [List.cons_append, List.mem_cons, List.mem_append, List.mem_singleton,
      List.not_mem_nil, or_false] at he
    rcases he with rfl | he | rfl
    · rfl
    · exact hloop e he
    · rfl
  · simp [find_descriptor_by_model, hrc]

theorem find_descriptor_by_model_ref_not_freed (iter_rc : dc_status_t)
    (catalog : List dc_descriptor_t) (family model it pos : Nat)
    (href : (find_descriptor_by_model iter_rc catalog family model).ref = some (it, pos)) :
    (find_descriptor_by_model iter_rc catalog family model).log.count
        (Event.descriptor_next it pos) = 1 ∧
    (find_descriptor_by_model iter_rc catalog family model).log.count
        (Event.descriptor_free it pos) = 0 := by
  by_cases hrc : iter_rc = DC_STATUS_SUCCESS
  · rcases hl : find_descriptor_by_model_loop 0 family model 0 catalog with ⟨x, evs⟩
    rcases x with _ | ⟨pos2, d⟩
    · simp [find_descriptor_by_model, hrc, hl] at href
    · simp only [find_descriptor_by_model, hrc, hl, ne_eq, not_true_eq_false, if_false,
        Option.some.injEq, Prod.mk.injEq] at href
      obtain ⟨rfl, rfl⟩ := href
      obtain ⟨-, h1, h2⟩ := find_descriptor_by_model_loop_hit 0 family model catalog 0 pos2 d
        evs hl
      simp [find_descriptor_by_model, hrc, hl, List.count_cons, List.count_append, h1, h2]
  · simp [find_descriptor_by_model, hrc] at href

theorem ble_packet_open_events (x : externals) (context : Option Nat) (devaddr : String) :
    ∀ e ∈ (ble_packet_open x context devaddr).2.2, is_catalog_event e = false := by
  cases hc : x.createBLEObject with
  | none => simp [ble_packet_open, hc, is_catalog_event]
  | some io =>
    cases hconn : x.connectToBLEDevice io devaddr <;> cases hm : x.malloc_stream <;>
      simp [ble_packet_open, hc, hconn, hm, ble_iostream_create, is_catalog_event]

/-- A failure of `open_ble_device` at the device-open step, for every input: the status is the
one of `dc_device_open`, and after the resolver has returned the only releases are those of
`close_device_data` on a record that holds the stream and the context. -/
theorem open_ble_device_device_open_failure (x : externals) (catalog : List dc_descriptor_t)
    (data : device_data_t) (addr : String) (family model : Nat) (s : ble_stream_t)
    (hctx : x.dc_context_new = DC_STATUS_SUCCESS)
    (hfound : (find_descriptor_by_model x.dc_descriptor_iterator catalog family model).rc
      = DC_STATUS_SUCCESS)
    (hopen : (ble_packet_open x (some x.context) addr).1 = DC_STATUS_SUCCESS)
    (hs : (ble_packet_open x (some x.context) addr).2.1 = some s)
    (hdev : x.dc_device_open ≠ DC_STATUS_SUCCESS) :
    (open_ble_device x catalog (some data) (some addr) family model).1 = x.dc_device_open ∧
    (open_ble_device x catalog (some data) (some addr) family model).2.2
      = Event.context_new x.context
        :: (find_descriptor_by_model x.dc_descriptor_iterator catalog family model).log
        ++ (ble_packet_open x (some x.context) addr).2.2
        ++ [Event.iostream_close, Event.ble_close s.ble_object, Event.ble_free s.ble_object,
            Event.stream_free, Event.context_free x.context] := by
  simp [open_ble_device, hctx, hfound, hopen, hs, hdev, close_device_data_some, close_log,
    device_data_zero]

/-- The descriptor leak at the device-open step, for every input: when context creation,
descriptor resolution and stream opening succeed and `dc_device_open` fails, the descriptor the
resolver handed over is never freed, while the stream is closed once, the context is freed
once and no device is closed. -/
theorem open_ble_device_device_open_failure_counts (x : externals)
    (catalog : List dc_descriptor_t) (data : device_data_t) (addr : String)
    (family model it pos : Nat)
    (hctx : x.dc_context_new = DC_STATUS_SUCCESS)
    (hfound : (find_descriptor_by_model x.dc_descriptor_iterator catalog family model).rc
      = DC_STATUS_SUCCESS)
    (href : (find_descriptor_by_model x.dc_descriptor_iterator catalog family model).ref
      = some (it, pos))
    (hopen : (ble_packet_open x (some x.context) addr).1 = DC_STATUS_SUCCESS)
    (hdev : x.dc_device_open ≠ DC_STATUS_SUCCESS) :
    (open_ble_device x catalog (some data) (some addr) family model).1 = x.dc_device_open ∧
    (open_ble_device x catalog (some data) (some addr) family model).2.2.count
      (Event.descriptor_next it pos) = 1 ∧
    (open_ble_device x catalog (some data) (some addr) family model).2.2.count
      (Event.descriptor_free it pos) = 0 ∧
    (open_ble_device x catalog (some data) (some addr) family model).2.2.count
      Event.iostream_close = 1 ∧
    (open_ble_device x catalog (some data) (some addr) family model).2.2.count
      (Event.context_new x.context) = 1 ∧
    (open_ble_device x catalog (some data) (some addr) family model).2.2.count
      (Event.context_free x.context) = 1 ∧
    (∀ dv, (open_ble_device x catalog (some data) (some addr) family model).2.2.count
      (Event.device_close dv) = 0) := by
  obtain ⟨io, hio, hconn, hmalloc⟩ : ∃ io, x.createBLEObject = some io ∧
      x.connectToBLEDevice io addr = true ∧ x.malloc_stream = true := by
    cases hc : x.createBLEObject with
    | none => simp [ble_packet_open, hc] at hopen
    | some io =>
      cases hconn : x.connectToBLEDevice io addr
      · simp [ble_packet_open, hc, hconn] at hopen
      · cases hm : x.malloc_stream
        · simp [ble_packet_open, hc, hconn, hm, ble_iostream_create] at hopen
        · exact ⟨io, rfl, hconn, rfl⟩
  have hs : (ble_packet_open x (some x.context) addr).2.1
      = some ⟨some x.context, DC_TRANSPORT_BLE, io⟩ := by
    simp [ble_packet_open, hio, hconn, hmalloc, ble_iostream_create]
  have hplog : (ble_packet_open x (some x.context) addr).2.2
      = [Event.ble_initialize, Event.ble_create io, Event.ble_connect io,
          Event.stream_malloc] := by
    simp [ble_packet_open, hio, hconn, hmalloc, ble_iostream_create]
  obtain ⟨hrc, hlog⟩ := open_ble_device_device_open_failure x catalog data addr family model _
    hctx hfound hopen hs hdev
  obtain ⟨hnext, hfree⟩ := find_descriptor_by_model_ref_not_freed _ _ _ _ _ _ href
  have hcat := find_descriptor_by_model_events x.dc_descriptor_iterator catalog family model
  have hzero : ∀ e, is_catalog_event e = false →
      (find_descriptor_by_model x.dc_descriptor_iterator catalog family model).log.count e
        = 0 := by
    intro e he
    rw [List.count_eq_zero]
    intro hmem
    rw [hcat e hmem] at he
    exact Bool.noConfusion he
  refine ⟨hrc, ?_, ?_, ?_, ?_, ?_, ?_⟩
  · rw [hlog, hplog]
    simp [List.count_cons, List.count_append, hnext]
  · rw [hlog, hplog]
    simp [List.count_cons, List.count_append, hfree]
  · rw [hlog, hplog]
    simp [List.count_cons, List.count_append, hzero Event.iostream_close rfl]
  · rw [hlog, hplog]
    simp [List.count_cons, List.count_append, hzero (Event.context_new x.context) rfl]
  · rw [hlog, hplog]
    simp [List.count_cons, List.count_append, hzero (Event.context_free x.context) rfl]
  · intro dv
    rw [hlog, hplog]
    simp [List.count_cons, List.count_append, hzero (Event.device_close dv) rfl]

/-- C7, evaluated: the open for the pair (7, 1) on the example catalog when `dc_device_open`
reports an I/O error after every earlier step succeeded. The status is the one of
`dc_device_open`, the stream is closed once, the context is freed once and `dc_device_close` is
not called; but the descriptor that the resolver handed over (`descriptor_next 0 2`) is never
given to `dc_descriptor_free`, so the descriptor counts are not balanced. -/
theorem open_ble_device_device_open_failure_leaks_descriptor :
    (open_ble_device externals_device_open_fails example_catalog (some device_data_zero)
      (some "addr") 7 1).1 = DC_STATUS_IO ∧
    (open_ble_device externals_device_open_fails example_catalog (some device_data_zero)
      (some "addr") 7 1).2.2 =
      [Event.context_new 1, Event.iterator_new 0,
        Event.descriptor_next 0 0, Event.descriptor_free 0 0,
        Event.descriptor_next 0 1, Event.descriptor_free 0 1,
        Event.descriptor_next 0 2, Event.iterator_free 0,
        Event.ble_initialize, Event.ble_create 7, Event.ble_connect 7, Event.stream_malloc,
        Event.iostream_close, Event.ble_close 7, Event.ble_free 7, Event.stream_free,
        Event.context_free 1] ∧
    (find_descriptor_by_model DC_STATUS_SUCCESS example_catalog 7 1).ref = some (0, 2) ∧
    (open_ble_device externals_device_open_fails example_catalog (some device_data_zero)
      (some "addr") 7 1).2.2.count (Event.descriptor_next 0 2) = 1 ∧
    (open_ble_device externals_device_open_fails example_catalog (some device_data_zero)
      (some "addr") 7 1).2.2.count (Event.descriptor_free 0 2) = 0 := by
  decide

/-- A resolver by name that returns success has written a descriptor, whatever the iterator
calls return. -/
theorem find_descriptor_by_name_from_out_isSome (iter_rc : Nat → dc_status_t)
    (catalog : List dc_descriptor_t) (name : String) (rules : List name_pattern) (k : Nat)
    (h : (find_descriptor_by_name_from iter_rc catalog name k rules).rc = DC_STATUS_SUCCESS) :
    (find_descriptor_by_name_from iter_rc catalog name k rules).out.isSome = true := by
  induction rules generalizing k with
  | nil =>
    by_cases hrc : iter_rc k = DC_STATUS_SUCCESS
    · rcases hl : find_descriptor_by_name_filter k name 0 catalog with ⟨x, evs⟩
      rcases x with _ | ⟨pos, d⟩
      · simp [find_descriptor_by_name_from, find_descriptor_by_name_fallback, hrc, hl] at h
      · simp [find_descriptor_by_name_from, find_descriptor_by_name_fallback, hrc, hl]
    · simp [find_descriptor_by_name_from, find_descriptor_by_name_fallback, hrc] at h
  | cons q rules ih =>
    cases hq : pattern_matches q name with
    | false =>
      simp only [find_descriptor_by_name_from, hq, Bool.false_eq_true, if_false] at h ⊢
      exact ih k h
    | true =>
      by_cases hrc : iter_rc k = DC_STATUS_SUCCESS
      · rcases hl : find_descriptor_by_name_scan k q 0 catalog with ⟨x, evs⟩
        rcases x with _ | ⟨pos, d⟩
        · simp only [find_descriptor_by_name_from, hq, hrc, hl, if_true, ne_eq,
            not_true_eq_false, if_false] at h ⊢
          exact ih (k + 1) h
        · simp [find_descriptor_by_name_from, hq, hrc, hl]
      · simp [find_descriptor_by_name_from, hq, hrc] at h

/-- A successful `get_device_info_from_name` has written the family and the model. -/
theorem get_device_info_from_name_pair_written (iter_rc : Nat → dc_status_t)
    (catalog : List dc_descriptor_t) (name : String)
    (h : (get_device_info_from_name iter_rc catalog name).1 = DC_STATUS_SUCCESS) :
    (get_device_info_from_name iter_rc catalog name).2.1.isSome = true := by
  by_cases hrc : (find_descriptor_by_name iter_rc catalog name).rc = DC_STATUS_SUCCESS
  · have hout := find_descriptor_by_name_from_out_isSome iter_rc catalog name name_patterns 0 hrc
    rcases hd : (find_descriptor_by_name iter_rc catalog name).out with _ | d
    · rw [find_descriptor_by_name] at hd
      rw [hd] at hout
      simp at hout
    · simp [get_device_info_from_name, hrc, hd]
  · simp [get_device_info_from_name, hrc] at h

theorem get_device_info_from_name_success (iter_rc : Nat → dc_status_t)
    (catalog : List dc_descriptor_t) (name : String) (d : dc_descriptor_t)
    (hrc : (find_descriptor_by_name iter_rc catalog name).rc = DC_STATUS_SUCCESS)
    (hd : (find_descriptor_by_name iter_rc catalog name).out = some d) :
    (get_device_info_from_name iter_rc catalog name).1 = DC_STATUS_SUCCESS ∧
    (get_device_info_from_name iter_rc catalog name).2.1 = some (d.type, d.model) := by
  simp [get_device_info_from_name, hrc, hd]

/-- C6, as amended: when the open with the stored pair fails, the name resolves to the
descriptor `d` and the second open succeeds, `open_ble_device_with_identification` returns
success with a session whose descriptor is the first catalog descriptor that has the family and
model of `d`. It has the family and model of `d`, and it is `d` itself when `d` is the first
catalog descriptor with that pair. -/
theorem open_ble_device_with_identification_uses_resolved_pair (x1 : externals)
    (name_iter_rc : Nat → dc_status_t) (x2 : externals) (catalog : List dc_descriptor_t)
    (name : String) (address : Option String) (stored_family stored_model : Nat)
    (d : dc_descriptor_t)
    (hstored : stored_family ≠ DC_FAMILY_NULL ∧ stored_model ≠ 0)
    (hfirst : (open_ble_device x1 catalog (some device_data_zero) address stored_family
      stored_model).1 ≠ DC_STATUS_SUCCESS)
    (hrc : (find_descriptor_by_name name_iter_rc catalog name).rc = DC_STATUS_SUCCESS)
    (hd : (find_descriptor_by_name name_iter_rc catalog name).out = some d)
    (hsecond : (open_ble_device x2 catalog
      (open_ble_device x1 catalog (some device_data_zero) address stored_family stored_model).2.1
      address d.type d.model).1 = DC_STATUS_SUCCESS) :
    ∃ data d2,
      (open_ble_device_with_identification true x1 name_iter_rc x2 catalog name address
        stored_family stored_model).1 = DC_STATUS_SUCCESS ∧
      (open_ble_device_with_identification true x1 name_iter_rc x2 catalog name address
        stored_family stored_model).2.1 = some data ∧
      data.descriptor = some d2 ∧
      IsFirst (fun e => e.type = d.type ∧ e.model = d.model) catalog d2 ∧
      d2.type = d.type ∧ d2.model = d.model ∧
      (IsFirst (fun e => e.type = d.type ∧ e.model = d.model) catalog d → d2 = d) := by
  have htest : ∀ e : dc_descriptor_t,
      decide (e.type = d.type ∧ e.model = d.model) = true ↔ (e.type = d.type ∧ e.model = d.model) :=
    fun e => by simp
  obtain ⟨hfound, opened, hopened, hdesc⟩ := open_ble_device_success _ _ _ _ _ _ hsecond
  obtain ⟨d2, hout, hfind⟩ := find_descriptor_by_model_success _ _ _ _ hfound
  have hfirst2 := IsFirst.of_find?_eq _ htest hfind
  obtain ⟨hinfo1, hinfo2⟩ := get_device_info_from_name_success name_iter_rc catalog name d hrc hd
  have hP : d2.type = d.type ∧ d2.model = d.model := by
    obtain ⟨_, _, _, hP, _⟩ := hfirst2
    exact hP
  refine ⟨opened, d2, ?_, ?_, hdesc.trans hout, hfirst2, hP.1, hP.2, ?_⟩
  · rcases h1 : open_ble_device x1 catalog (some device_data_zero) address stored_family
      stored_model with ⟨rc1, after1, evs1⟩
    rw [h1] at hfirst hsecond
    simp only at hfirst hsecond
    cases rc1 <;>
      first
        | exact absurd rfl hfirst
        | simp [open_ble_device_with_identification, hstored, h1, hinfo1, hinfo2, hsecond]
  · rcases h1 : open_ble_device x1 catalog (some device_data_zero) address stored_family
      stored_model with ⟨rc1, after1, evs1⟩
    rw [h1] at hfirst hsecond hopened
    simp only at hfirst hsecond hopened
    cases rc1 <;>
      first
        | exact absurd rfl hfirst
        | simp [open_ble_device_with_identification, hstored, h1, hinfo1, hinfo2, hsecond,
            hopened]
  · intro hdfirst
    have := IsFirst.find?_eq _ htest hdfirst
    rw [hfind] at this
    exact Option.some.inj this

/-- C6, as amended, on the example catalog: the stored pair (7, 1) fails at the connect step,
the name "Petrel" resolves to the "Petrel 2" entry with the pair (5, 3), and the session gets
the first entry with the pair (5, 3). -/
theorem open_ble_device_with_identification_uses_resolved_pair_witness :
    ∃ data d2,
      (open_ble_device_with_identification true externals_connect_fails
        (fun _ => DC_STATUS_SUCCESS) externals_ok example_catalog "Petrel" (some "addr")
        7 1).1 = DC_STATUS_SUCCESS ∧
      (open_ble_device_with_identification true externals_connect_fails
        (fun _ => DC_STATUS_SUCCESS) externals_ok example_catalog "Petrel" (some "addr")
        7 1).2.1 = some data ∧
      data.descriptor = some d2 ∧
      IsFirst (fun e => e.type = 5 ∧ e.model = 3) example_catalog d2 ∧
      d2.type = 5 ∧ d2.model = 3 ∧
      (IsFirst (fun e => e.type = 5 ∧ e.model = 3) example_catalog
          ⟨some "Shearwater", some "Petrel 2", 5, 3, 48, fun _ _ => true⟩ →
        d2 = ⟨some "Shearwater", some "Petrel 2", 5, 3, 48, fun _ _ => true⟩) :=
  open_ble_device_with_identification_uses_resolved_pair externals_connect_fails
    (fun _ => DC_STATUS_SUCCESS) externals_ok example_catalog "Petrel" (some "addr") 7 1
    ⟨some "Shearwater", some "Petrel 2", 5, 3, 48, fun _ _ => true⟩
    (by decide) (by decide) (by decide) rfl (by decide)

/-- C6 fails as stated: on the example catalog, with the stored pair (7, 1) failing at the
connect step and the name "Petrel", the name resolves to the "Petrel 2" descriptor, the second
open succeeds, and the session's descriptor is the "Petrel" descriptor, the first catalog entry
with the same family and model, not the name-resolved one. -/
theorem open_ble_device_with_identification_descriptor_differs :
    (7 ≠ DC_FAMILY_NULL ∧ 1 ≠ 0) ∧
    (open_ble_device externals_connect_fails example_catalog (some device_data_zero)
      (some "addr") 7 1).1 ≠ DC_STATUS_SUCCESS ∧
    (find_descriptor_by_name (fun _ => DC_STATUS_SUCCESS) example_catalog "Petrel").rc
      = DC_STATUS_SUCCESS ∧
    ((find_descriptor_by_name (fun _ => DC_STATUS_SUCCESS) example_catalog "Petrel").out.bind
      fun d => d.product) = some "Petrel 2" ∧
    (open_ble_device externals_ok example_catalog
      (open_ble_device externals_connect_fails example_catalog (some device_data_zero)
        (some "addr") 7 1).2.1 (some "addr") 5 3).1 = DC_STATUS_SUCCESS ∧
    (open_ble_device_with_identification true externals_connect_fails
      (fun _ => DC_STATUS_SUCCESS) externals_ok example_catalog "Petrel" (some "addr")
      7 1).1 = DC_STATUS_SUCCESS ∧
    ((open_ble_device_with_identification true externals_connect_fails
      (fun _ => DC_STATUS_SUCCESS) externals_ok example_catalog "Petrel" (some "addr")
      7 1).2.1.bind fun data => data.descriptor.bind fun d => d.product) = some "Petrel" ∧
    ¬ (∀ d, (find_descriptor_by_name (fun _ => DC_STATUS_SUCCESS) example_catalog "Petrel").out
        = some d →
      ∃ data, (open_ble_device_with_identification true externals_connect_fails
        (fun _ => DC_STATUS_SUCCESS) externals_ok example_catalog "Petrel" (some "addr")
        7 1).2.1 = some data ∧ data.descriptor = some d) := by
  refine ⟨by decide, by decide, by decide, by decide, by decide, by decide, by decide, ?_⟩
  intro hall
  obtain ⟨data, hdata, hdesc⟩ :=
    hall ⟨some "Shearwater", some "Petrel 2", 5, 3, 48, fun _ _ => true⟩ rfl
  have hprod : ((open_ble_device_with_identification true externals_connect_fails
      (fun _ => DC_STATUS_SUCCESS) externals_ok example_catalog "Petrel" (some "addr")
      7 1).2.1.bind fun data => data.descriptor.bind fun d => d.product) = some "Petrel" := by
    decide
  rw [hdata] at hprod
  simp only [Option.some_bind, hdesc] at hprod
  exact absurd hprod (by decide)

/-! ## Balance of catalog iterators and descriptors -/

theorem find_descriptor_by_model_loop_eq_scan (it family model pos : Nat)
    (l : List dc_descriptor_t) :
    find_descriptor_by_model_loop it family model pos l
      = catalog_scan (fun d => decide (d.type = family ∧ d.model = model)) it pos l := by
  induction l generalizing pos with
  | nil => rfl
  | cons d rest ih =>
    by_cases h : d.type = family ∧ d.model = model
    · simp [find_descriptor_by_model_loop, catalog_scan, h]
    · simp [find_descriptor_by_model_loop, catalog_scan, h, ih]

theorem find_descriptor_by_name_scan_eq_scan (it : Nat) (p : name_pattern) (pos : Nat)
    (l : List dc_descriptor_t) :
    find_descriptor_by_name_scan it p pos l
      = catalog_scan (fun d => vendor_product_equal d p) it pos l := by
  induction l generalizing pos with
  | nil => rfl
  | cons d rest ih =>
    cases h : vendor_product_equal d p
    · simp [find_descriptor_by_name_scan, catalog_scan, h, ih]
    · simp [find_descriptor_by_name_scan, catalog_scan, h]

theorem find_descriptor_by_name_filter_eq_scan (it : Nat) (name : String) (pos : Nat)
    (l : List dc_descriptor_t) :
    find_descriptor_by_name_filter it name pos l
      = catalog_scan (fun d => ble_filter_accepts d name) it pos l := by
  induction l generalizing pos with
  | nil => rfl
  | cons d rest ih =>
    cases h : ble_filter_accepts d name
    · simp [find_descriptor_by_name_filter, catalog_scan, h, ih]
    · simp [find_descriptor_by_name_filter, catalog_scan, h]

theorem count_eq_zero_of_pos_lt {it pos0 : Nat} {evs : List Event}
    (h : ∀ e ∈ evs, ∃ pos, pos0 ≤ pos ∧
      (e = Event.descriptor_next it pos ∨ e = Event.descriptor_free it pos))
    (pos : Nat) (hlt : pos < pos0) :
    evs.count (Event.descriptor_next it pos) = 0 ∧
      evs.count (Event.descriptor_free it pos) = 0 := by
  constructor
  · rw [List.count_eq_zero]
    intro hmem
    obtain ⟨q, hq, h1 | h1⟩ := h _ hmem
    · simp only [Event.descriptor_next.injEq, true_and] at h1
      omega
    · simp at h1
  · rw [List.count_eq_zero]
    intro hmem
    obtain ⟨q, hq, h1 | h1⟩ := h _ hmem
    · simp at h1
    · simp only [Event.descriptor_free.injEq, true_and] at h1
      omega

theorem catalog_scan_balanced (test : dc_descriptor_t → Bool) (it pos0 : Nat)
    (l : List dc_descriptor_t) :
    scan_balanced it pos0 l (catalog_scan test it pos0 l).1 (catalog_scan test it pos0 l).2 := by
  induction l generalizing pos0 with
  | nil =>
    refine ⟨?_, ?_, ?_, ?_⟩ <;> simp [catalog_scan]
  | cons d rest ih =>
    cases hd : test d with
    | true =>
      have heq : catalog_scan test it pos0 (d :: rest)
          = (some (pos0, d), [Event.descriptor_next it pos0]) := by
        simp [catalog_scan, hd]
      rw [heq]
      refine ⟨?_, ?_, ?_, ?_⟩
      · intro e he
        simp only [catalog_scan, hd, if_true, List.mem_singleton] at he
        exact ⟨pos0, le_refl _, Or.inl he⟩
      · intro pos
        simp only [catalog_scan, hd, if_true, List.count_cons, List.count_nil, beq_iff_eq]
        split_ifs <;> omega
      · intro pos
        by_cases hp : pos0 = pos <;>
          simp [catalog_scan, hd, List.count_cons, hp]
      · intro pos d2 hres
        simp only [catalog_scan, hd, if_true, Option.some.injEq, Prod.mk.injEq] at hres
        obtain ⟨rfl, rfl⟩ := hres
        simp
    | false =>
      obtain ⟨h1, h2, h3, h4⟩ := ih (pos0 + 1)
      have hz := fun pos hlt => count_eq_zero_of_pos_lt h1 pos hlt
      have heq : catalog_scan test it pos0 (d :: rest)
          = ((catalog_scan test it (pos0 + 1) rest).1,
              Event.descriptor_next it pos0 :: Event.descriptor_free it pos0
                :: (catalog_scan test it (pos0 + 1) rest).2) := by
        simp [catalog_scan, hd]
      rw [heq]
      refine ⟨?_, ?_, ?_, ?_⟩
      · intro e he
        simp only [catalog_scan, hd, Bool.false_eq_true, if_false, List.mem_cons] at he
        rcases he with rfl | rfl | he
        · exact ⟨pos0, le_refl _, Or.inl rfl⟩
        · exact ⟨pos0, le_refl _, Or.inr rfl⟩
        · obtain ⟨q, hq, hor⟩ := h1 e he
          exact ⟨q, by omega, hor⟩
      · intro pos
        by_cases hp : pos0 = pos
        · subst hp
          have := (hz pos0 (by omega)).1
          simp [catalog_scan, hd, List.count_cons, this]
        · have := h2 pos
          simpa [catalog_scan, hd, List.count_cons, hp] using this
      · intro pos
        by_cases hp : pos0 = pos
        · subst hp
          have hz1 := (hz pos0 (by omega)).1
          have hz2 := (hz pos0 (by omega)).2
          have hne : ¬ Option.map Prod.fst (catalog_scan test it (pos0 + 1) rest).1
              = some pos0 := by
            intro hmap
            rcases hres : (catalog_scan test it (pos0 + 1) rest).1 with _ | ⟨q, d2⟩
            · rw [hres] at hmap
              simp at hmap
            · rw [hres] at hmap
              simp only [Option.map_some', Option.some.injEq] at hmap
              have := (h4 q d2 hres).1
              omega
          simp [catalog_scan, hd, List.count_cons, hz1, hz2, hne]
        · have := h3 pos
          simpa [catalog_scan, hd, List.count_cons, hp] using this
      · intro pos d2 hres
        simp only [catalog_scan, hd, Bool.false_eq_true, if_false] at hres
        obtain ⟨hle, hget⟩ := h4 pos d2 hres
        refine ⟨by omega, ?_⟩
        have hsub : pos - pos0 = (pos - (pos0 + 1)) + 1 := by omega
        rw [hsub, List.getElem?_cons_succ]
        exact hget

theorem count_eq_zero_of_iterator {k : Nat} {log : List Event}
    (h : ∀ e ∈ log, ∃ it, event_iterator e = some it ∧ k ≤ it) (e : Event) (it : Nat)
    (he : event_iterator e = some it) (hlt : it < k) : log.count e = 0 := by
  rw [List.count_eq_zero]
  intro hmem
  obtain ⟨it2, h2, hle⟩ := h e hmem
  rw [he] at h2
  simp only [Option.some.injEq] at h2
  omega

theorem count_eq_zero_of_iterator_eq {k : Nat} {log : List Event}
    (h : ∀ e ∈ log, event_iterator e = some k) (e : Event) (it : Nat)
    (he : event_iterator e = some it) (hne : it ≠ k) : log.count e = 0 := by
  rw [List.count_eq_zero]
  intro hmem
  have h2 := h e hmem
  rw [he] at h2
  simp only [Option.some.injEq] at h2
  exact hne h2

theorem log_balanced_nil (k : Nat) : log_balanced k none [] := by
  refine ⟨?_, ?_, ?_⟩ <;> simp

/-- The events of one iteration: creation of iterator `k`, a scan, release of iterator `k`. -/
theorem block_iterator (k : Nat) (l : List dc_descriptor_t)
    (res : Option (Nat × dc_descriptor_t)) (evs : List Event)
    (hs : scan_balanced k 0 l res evs) :
    ∀ e ∈ Event.iterator_new k :: evs ++ [Event.iterator_free k], event_iterator e = some k := by
  intro e he
  simp only [List.cons_append, List.mem_cons, List.mem_append, List.mem_singleton,
    List.not_mem_nil, or_false] at he
  rcases he with rfl | he | rfl
  · rfl
  · obtain ⟨pos, -, rfl | rfl⟩ := hs.1 e he <;> rfl
  · rfl

theorem scan_count_other {k : Nat} {l : List dc_descriptor_t}
    {res : Option (Nat × dc_descriptor_t)} {evs : List Event}
    (hs : scan_balanced k 0 l res evs) (e : Event)
    (he : ∀ pos, e ≠ Event.descriptor_next k pos ∧ e ≠ Event.descriptor_free k pos) :
    evs.count e = 0 := by
  rw [List.count_eq_zero]
  intro hmem
  obtain ⟨pos, -, h | h⟩ := hs.1 e hmem
  · exact (he pos).1 h
  · exact (he pos).2 h

theorem block_balanced (k : Nat) (l : List dc_descriptor_t)
    (res : Option (Nat × dc_descriptor_t)) (evs : List Event)
    (hs : scan_balanced k 0 l res evs) :
    log_balanced k (res.map fun x => (k, x.1))
      (Event.iterator_new k :: evs ++ [Event.iterator_free k]) := by
  have hit := block_iterator k l res evs hs
  refine ⟨fun e he => ⟨k, hit e he, le_refl _⟩, ?_, ?_⟩
  · intro it
    have h1 : evs.count (Event.iterator_new it) = 0 :=
      scan_count_other hs _ fun pos => ⟨by simp, by simp⟩
    have h2 : evs.count (Event.iterator_free it) = 0 :=
      scan_count_other hs _ fun pos => ⟨by simp, by simp⟩
    by_cases hk : k = it <;>
      simp [List.count_cons, List.count_append, h1, h2, hk]
  · intro it pos
    by_cases hk : it = k
    · subst hk
      have h2 := hs.2.1 pos
      have h3 := hs.2.2.1 pos
      have hiff : (Option.map (fun x => (it, x.1)) res = some (it, pos))
          ↔ (Option.map Prod.fst res = some pos) := by
        cases res <;> simp
      simp only [List.cons_append, List.count_cons, List.count_append, List.count_nil,
        beq_iff_eq, reduceCtorEq, if_false, add_zero, hiff]
      exact ⟨h2, h3⟩
    · have h1 : (Event.iterator_new k :: evs ++ [Event.iterator_free k]).count
          (Event.descriptor_next it pos) = 0 :=
        count_eq_zero_of_iterator_eq hit _ it rfl hk
      have h2 : (Event.iterator_new k :: evs ++ [Event.iterator_free k]).count
          (Event.descriptor_free it pos) = 0 :=
        count_eq_zero_of_iterator_eq hit _ it rfl hk
      have hne : ¬ Option.map (fun x => (k, x.1)) res = some (it, pos) := by
        cases res with
        | none => simp
        | some x =>
          simp only [Option.map_some', Option.some.injEq, Prod.mk.injEq, not_and]
          intro h
          exact absurd h.symm hk
      rw [h1, h2]
      simp [hne]

theorem log_balanced_append (k : Nat) (ref : Option (Nat × Nat)) (l1 l2 : List Event)
    (h1 : log_balanced k none l1) (hk : ∀ e ∈ l1, event_iterator e = some k)
    (h2 : log_balanced (k + 1) ref l2) (href : ∀ it pos, ref = some (it, pos) → k + 1 ≤ it) :
    log_balanced k ref (l1 ++ l2) := by
  obtain ⟨a1, b1, c1⟩ := h1
  obtain ⟨a2, b2, c2⟩ := h2
  refine ⟨?_, ?_, ?_⟩
  · intro e he
    rcases List.mem_append.1 he with he | he
    · exact a1 e he
    · obtain ⟨it, h, hle⟩ := a2 e he
      exact ⟨it, h, by omega⟩
  · intro it
    by_cases hit : it = k
    · subst hit
      have z1 := count_eq_zero_of_iterator a2 (Event.iterator_new it) it rfl (by omega)
      have z2 := count_eq_zero_of_iterator a2 (Event.iterator_free it) it rfl (by omega)
      simp only [List.count_append, z1, z2, add_zero]
      exact b1 it
    · have z1 := count_eq_zero_of_iterator_eq hk (Event.iterator_new it) it rfl hit
      have z2 := count_eq_zero_of_iterator_eq hk (Event.iterator_free it) it rfl hit
      simp only [List.count_append, z1, z2, zero_add]
      exact b2 it
  · intro it pos
    by_cases hit : it = k
    · subst hit
      have z1 := count_eq_zero_of_iterator a2 (Event.descriptor_next it pos) it rfl (by omega)
      have z2 := count_eq_zero_of_iterator a2 (Event.descriptor_free it pos) it rfl (by omega)
      have hne : ¬ ref = some (it, pos) := fun h => by
        have := href it pos h
        omega
      have := c1 it pos
      simp only [reduceCtorEq, if_false, add_zero] at this
      simp only [List.count_append, z1, z2, add_zero, hne, if_false]
      exact this
    · have z1 := count_eq_zero_of_iterator_eq hk (Event.descriptor_next it pos) it rfl hit
      have z2 := count_eq_zero_of_iterator_eq hk (Event.descriptor_free it pos) it rfl hit
      simp only [List.count_append, z1, z2, zero_add]
      exact c2 it pos

theorem log_balanced_mono (k : Nat) (ref : Option (Nat × Nat)) (log : List Event)
    (h : log_balanced (k + 1) ref log) : log_balanced k ref log := by
  obtain ⟨a, b, c⟩ := h
  refine ⟨fun e he => ?_, b, c⟩
  obtain ⟨it, h, hle⟩ := a e he
  exact ⟨it, h, by omega⟩

theorem resources_balanced_of_from (yields : Nat → List dc_descriptor_t) (k : Nat)
    (r : find_result) (h : result_balanced_from yields k r) : resources_balanced yields r := by
  obtain ⟨⟨a, b, c⟩, -, hs, hf⟩ := h
  refine ⟨?_, b, ?_, ?_, hf⟩
  · intro e he
    obtain ⟨it, hit, -⟩ := a e he
    cases e <;> simp [event_iterator] at hit <;> rfl
  · intro it pos
    obtain ⟨c1, c2⟩ := c it pos
    refine ⟨c1, ?_⟩
    split_ifs with href
    · rw [if_pos href] at c2
      omega
    · rw [if_neg href] at c2
      omega
  · intro hrc
    obtain ⟨it, pos, d, href, hout, hcat⟩ := hs hrc
    obtain ⟨c1, c2⟩ := c it pos
    rw [if_pos href] at c2
    exact ⟨it, pos, d, href, hout, hcat, by omega, by omega⟩

/-- One iteration that ends the resolver call: creation of iterator `k`, a scan of the catalog,
release of iterator `k`, and the status and descriptor the scan decides. -/
theorem result_balanced_block (yields : Nat → List dc_descriptor_t)
    (catalog : List dc_descriptor_t) (k : Nat) (hyields : yields k = catalog)
    (test : dc_descriptor_t → Bool) (r : find_result)
    (hlog : r.log = Event.iterator_new k :: (catalog_scan test k 0 catalog).2
      ++ [Event.iterator_free k])
    (href : r.ref = (catalog_scan test k 0 catalog).1.map fun x => (k, x.1))
    (hout : r.out = (catalog_scan test k 0 catalog).1.map fun x => x.2)
    (hrc : r.rc = DC_STATUS_SUCCESS ↔ (catalog_scan test k 0 catalog).1.isSome = true) :
    result_balanced_from yields k r := by
  have hs := catalog_scan_balanced test k 0 catalog
  refine ⟨?_, ?_, ?_, ?_⟩
  · rw [hlog, href]
    exact block_balanced k catalog _ _ hs
  · intro it pos h
    rw [href] at h
    rcases hres : (catalog_scan test k 0 catalog).1 with _ | ⟨q, d⟩
    · rw [hres] at h
      simp at h
    · rw [hres] at h
      simp only [Option.map_some', Option.some.injEq, Prod.mk.injEq] at h
      omega
  · intro h
    have hsome := hrc.1 h
    rcases hres : (catalog_scan test k 0 catalog).1 with _ | ⟨q, d⟩
    · rw [hres] at hsome
      simp at hsome
    · refine ⟨k, q, d, ?_, ?_, ?_⟩
      · rw [href, hres]
        rfl
      · rw [hout, hres]
        rfl
      · have := (hs.2.2.2 q d hres).2
        rw [hyields]
        simpa using this
  · intro h
    have hnone : (catalog_scan test k 0 catalog).1 = none := by
      rcases hres : (catalog_scan test k 0 catalog).1 with _ | x
      · rfl
      · exact absurd (hrc.2 (by rw [hres]; rfl)) h
    rw [href, hout, hnone]
    exact ⟨rfl, rfl⟩

theorem result_balanced_failed (yields : Nat → List dc_descriptor_t) (k : Nat)
    (rc : dc_status_t) (h : rc ≠ DC_STATUS_SUCCESS) :
    result_balanced_from yields k { rc := rc, out := none, ref := none, log := [] } :=
  ⟨log_balanced_nil k, fun _ _ h2 => by simp at h2, fun h2 => absurd h2 h, fun _ => ⟨rfl, rfl⟩⟩

theorem find_descriptor_by_model_balanced_from (iter_rc : dc_status_t)
    (catalog : List dc_descriptor_t) (family model : Nat) :
    result_balanced_from (fun _ => catalog) 0
      (find_descriptor_by_model iter_rc catalog family model) := by
  by_cases hrc : iter_rc = DC_STATUS_SUCCESS
  · have heq := find_descriptor_by_model_loop_eq_scan 0 family model 0 catalog
    apply result_balanced_block (fun _ => catalog) catalog 0 rfl
      (fun d => decide (d.type = family ∧ d.model = model))
    all_goals
      rw [← heq]
      rcases hl : find_descriptor_by_model_loop 0 family model 0 catalog with ⟨_ | ⟨pos, d⟩, evs⟩
        <;> simp [find_descriptor_by_model, hrc, hl]
  · have : find_descriptor_by_model iter_rc catalog family model
        = { rc := iter_rc, out := none, ref := none, log := [] } := by
      simp [find_descriptor_by_model, hrc]
    rw [this]
    exact result_balanced_failed _ 0 iter_rc hrc

theorem find_descriptor_by_name_fallback_balanced_from (yields : Nat → List dc_descriptor_t)
    (rc : dc_status_t) (k : Nat) (catalog : List dc_descriptor_t) (hyields : yields k = catalog)
    (name : String) :
    result_balanced_from yields k (find_descriptor_by_name_fallback rc k catalog name) := by
  by_cases hrc : rc = DC_STATUS_SUCCESS
  · have heq := find_descriptor_by_name_filter_eq_scan k name 0 catalog
    apply result_balanced_block yields catalog k hyields (fun d => ble_filter_accepts d name)
    all_goals
      rw [← heq]
      rcases hl : find_descriptor_by_name_filter k name 0 catalog with ⟨_ | ⟨pos, d⟩, evs⟩
        <;> simp [find_descriptor_by_name_fallback, hrc, hl]
  · have : find_descriptor_by_name_fallback rc k catalog name
        = { rc := rc, out := none, ref := none, log := [] } := by
      simp [find_descriptor_by_name_fallback, hrc]
    rw [this]
    exact result_balanced_failed yields k rc hrc

theorem find_descriptor_by_name_from_yields_balanced_from (iter_rc : Nat → dc_status_t)
    (yields : Nat → List dc_descriptor_t) (name : String) (rules : List name_pattern)
    (k : Nat) :
    result_balanced_from yields k
      (find_descriptor_by_name_from_yields iter_rc yields name k rules) := by
  induction rules generalizing k with
  | nil =>
    exact find_descriptor_by_name_fallback_balanced_from yields (iter_rc k) k (yields k) rfl name
  | cons p ps ih =>
    cases hp : pattern_matches p name with
    | false =>
      simp only [find_descriptor_by_name_from_yields, hp, Bool.false_eq_true, if_false]
      exact ih k
    | true =>
      by_cases hrc : iter_rc k = DC_STATUS_SUCCESS
      · have heq := find_descriptor_by_name_scan_eq_scan k p 0 (yields k)
        have hs := catalog_scan_balanced (fun d => vendor_product_equal d p) k 0 (yields k)
        rw [← heq] at hs
        rcases hl : find_descriptor_by_name_scan k p 0 (yields k) with ⟨_ | ⟨pos, d⟩, evs⟩
        · rw [hl] at hs
          obtain ⟨h1, h2, h3, h4⟩ := ih (k + 1)
          have hfrom : find_descriptor_by_name_from_yields iter_rc yields name k (p :: ps)
              = { find_descriptor_by_name_from_yields iter_rc yields name (k + 1) ps with
                  log := (Event.iterator_new k :: evs ++ [Event.iterator_free k])
                    ++ (find_descriptor_by_name_from_yields iter_rc yields name (k + 1)
                      ps).log } := by
            simp [find_descriptor_by_name_from_yields, hp, hrc, hl]
          rw [hfrom]
          refine ⟨?_, ?_, h3, h4⟩
          · exact log_balanced_append k _ _ _ (block_balanced k (yields k) none evs hs)
              (block_iterator k (yields k) none evs hs) h1 h2
          · intro it pos h
            have := h2 it pos h
            omega
        · apply result_balanced_block yields (yields k) k rfl
            (fun d => vendor_product_equal d p)
          all_goals
            rw [← heq, hl]
            simp [find_descriptor_by_name_from_yields, hp, hrc, hl]
      · have : find_descriptor_by_name_from_yields iter_rc yields name k (p :: ps)
            = { rc := iter_rc k, out := none, ref := none, log := [] } := by
          simp [find_descriptor_by_name_from_yields, hp, hrc]
        rw [this]
        exact result_balanced_failed yields k (iter_rc k) hrc

/-- With the same catalog for every iterator, the resolver with early-ending iterations is the
resolver by name. -/
theorem find_descriptor_by_name_from_yields_const (iter_rc : Nat → dc_status_t)
    (catalog : List dc_descriptor_t) (name : String) (rules : List name_pattern) (k : Nat) :
    find_descriptor_by_name_from_yields iter_rc (fun _ => catalog) name k rules
      = find_descriptor_by_name_from iter_rc catalog name k rules := by
  induction rules generalizing k with
  | nil => rfl
  | cons p ps ih =>
    cases hp : pattern_matches p name with
    | false => simpa [find_descriptor_by_name_from_yields, find_descriptor_by_name_from, hp]
        using ih k
    | true =>
      by_cases hrc : iter_rc k = DC_STATUS_SUCCESS
      · rcases hl : find_descriptor_by_name_scan k p 0 catalog with ⟨_ | ⟨pos, d⟩, evs⟩ <;>
          simp [find_descriptor_by_name_from_yields, find_descriptor_by_name_from, hp, hrc, hl,
            ih]
      · simp [find_descriptor_by_name_from_yields, find_descriptor_by_name_from, hp, hrc]

/-- C11: for every catalog, every query and every outcome of the iterator creations, after
`find_descriptor_by_model` and after `find_descriptor_by_name` every catalog iterator that was
created has been freed exactly once, and every descriptor that an iteration yielded has been
freed exactly once, except the descriptor returned to the caller on success, which was yielded
once and has not been freed. An iteration that `dc_iterator_next` ends with an error is an
iteration over a shorter sequence: the same holds when each iterator of the resolver by name
yields a sequence of its own. -/
theorem find_descriptor_resources_balanced (catalog : List dc_descriptor_t)
    (model_iter_rc : dc_status_t) (family model : Nat) (name_iter_rc : Nat → dc_status_t)
    (name : String) (yields : Nat → List dc_descriptor_t) :
    resources_balanced (fun _ => catalog)
      (find_descriptor_by_model model_iter_rc catalog family model) ∧
    resources_balanced (fun _ => catalog)
      (find_descriptor_by_name name_iter_rc catalog name) ∧
    resources_balanced yields (find_descriptor_by_name_yields name_iter_rc yields name) := by
  refine ⟨?_, ?_, ?_⟩
  · exact resources_balanced_of_from _ 0 _
      (find_descriptor_by_model_balanced_from model_iter_rc catalog family model)
  · have h := find_descriptor_by_name_from_yields_balanced_from name_iter_rc
      (fun _ => catalog) name name_patterns 0
    rw [find_descriptor_by_name_from_yields_const] at h
    exact resources_balanced_of_from _ 0 _ h
  · exact resources_balanced_of_from _ 0 _
      (find_descriptor_by_name_from_yields_balanced_from name_iter_rc yields name
        name_patterns 0)

/-! ## Display name -/

theorem snprintf_s_s_eq (v p : String) :
    snprintf_s_s (strlen v.data + strlen p.data + 2) v p = v ++ " " ++ p := by
  apply String.ext
  simp only [snprintf_s_s, strlen, String.data_append]
  rw [List.take_of_length_le]
  · simp
  · simp
    omega

theorem display_name_data (v p : String) :
    (v ++ " " ++ p).data = v.data ++ ' ' :: p.data := by
  simp [String.data_append]

theorem open_ble_device_success_model (x : externals) (catalog : List dc_descriptor_t)
    (data : Option device_data_t) (devaddr : Option String) (family model : Nat)
    (d : dc_descriptor_t) (v p : String)
    (h : (open_ble_device x catalog data devaddr family model).1 = DC_STATUS_SUCCESS)
    (hd : (find_descriptor_by_model x.dc_descriptor_iterator catalog family model).out = some d)
    (hv : d.vendor = some v) (hp : d.product = some p) (hmalloc : x.malloc_name = true) :
    ∃ opened, (open_ble_device x catalog data devaddr family model).2.1 = some opened ∧
      opened.model = some (snprintf_s_s (strlen v.data + strlen p.data + 2) v p) := by
  unfold open_ble_device at h ⊢
  rcases data with _ | data
  · simp at h
  rcases devaddr with _ | addr
  · simp at h
  simp only at h ⊢
  split_ifs at h ⊢ with h1 h2 h3 h4 h5
  all_goals first
    | exact absurd h h1
    | exact absurd h h2
    | exact absurd h h3
    | exact absurd h h4
    | exact absurd h h5
    | (simp only [hd, hv, hp, hmalloc, if_true]
       exact ⟨_, rfl, rfl⟩)

theorem get_formatted_device_name_built (iter_rc : Nat → dc_status_t)
    (catalog : List dc_descriptor_t) (name : String) (d : dc_descriptor_t) (v p : String)
    (hrc : (find_descriptor_by_name iter_rc catalog name).rc = DC_STATUS_SUCCESS)
    (hd : (find_descriptor_by_name iter_rc catalog name).out = some d)
    (hv : d.vendor = some v) (hp : d.product = some p) :
    (get_formatted_device_name iter_rc true catalog name).1
      = some (snprintf_s_s (strlen v.data + strlen p.data + 2) v p) := by
  simp [get_formatted_device_name, hrc, hd, hv, hp]

/-- C12: for a vendor string `v` and a product string `p`, the display name that the
`snprintf` into the buffer of `|v| + |p| + 2` bytes builds is `v`, one space, `p`, not
truncated: its length is `|v| + |p| + 1` and with the terminating NUL it fits the buffer. This
is the model string a successful `open_ble_device` stores and the string
`get_formatted_device_name` returns when the selected descriptor has vendor `v` and product `p`
and the `malloc` of the buffer succeeds. For "Suunto" and "EON Steel" it is
"Suunto EON Steel". -/
theorem display_name_is_vendor_space_product (v p : String) :
    snprintf_s_s (strlen v.data + strlen p.data + 2) v p = v ++ " " ++ p ∧
    (snprintf_s_s (strlen v.data + strlen p.data + 2) v p).length = v.length + p.length + 1 ∧
    (snprintf_s_s (strlen v.data + strlen p.data + 2) v p).length + 1
      ≤ strlen v.data + strlen p.data + 2 ∧
    (∀ (x : externals) (catalog : List dc_descriptor_t) (data : Option device_data_t)
        (devaddr : Option String) (family model : Nat) (d : dc_descriptor_t),
      (open_ble_device x catalog data devaddr family model).1 = DC_STATUS_SUCCESS →
      (find_descriptor_by_model x.dc_descriptor_iterator catalog family model).out = some d →
      d.vendor = some v → d.product = some p → x.malloc_name = true →
      ∃ opened, (open_ble_device x catalog data devaddr family model).2.1 = some opened ∧
        opened.model = some (v ++ " " ++ p)) ∧
    (∀ (iter_rc : Nat → dc_status_t) (catalog : List dc_descriptor_t) (name : String)
        (d : dc_descriptor_t),
      (find_descriptor_by_name iter_rc catalog name).rc = DC_STATUS_SUCCESS →
      (find_descriptor_by_name iter_rc catalog name).out = some d →
      d.vendor = some v → d.product = some p →
      (get_formatted_device_name iter_rc true catalog name).1 = some (v ++ " " ++ p)) ∧
    snprintf_s_s (strlen "Suunto".data + strlen "EON Steel".data + 2) "Suunto" "EON Steel"
      = "Suunto EON Steel" := by
  have heq := snprintf_s_s_eq v p
  refine ⟨heq, ?_, ?_, ?_, ?_, ?_⟩
  · rw [heq]
    show (v ++ " " ++ p).data.length = v.data.length + p.data.length + 1
    rw [display_name_data]
    simp only [List.length_append, List.length_cons]
    omega
  · rw [heq]
    show (v ++ " " ++ p).data.length + 1 ≤ v.data.length + p.data.length + 2
    rw [display_name_data]
    simp only [List.length_append, List.length_cons]
    omega
  · intro x catalog data devaddr family model d h hd hv hp hmalloc
    rw [← heq]
    exact open_ble_device_success_model x catalog data devaddr family model d v p h hd hv hp
      hmalloc
  · intro iter_rc catalog name d hrc hd hv hp
    rw [← heq]
    exact get_formatted_device_name_built iter_rc catalog name d v p hrc hd hv hp
  · decide

/-- C12, on the catalog with the "Suunto" "EON Steel" descriptor and the name "EON Steel". -/
theorem display_name_is_vendor_space_product_witness :
    (get_formatted_device_name (fun _ => DC_STATUS_SUCCESS) true suunto_catalog "EON Steel").1
      = some ("Suunto" ++ " " ++ "EON Steel") :=
  (display_name_is_vendor_space_product "Suunto" "EON Steel").2.2.2.2.1
    (fun _ => DC_STATUS_SUCCESS) suunto_catalog "EON Steel"
    ⟨some "Suunto", some "EON Steel", 3, 0, 32, fun _ _ => false⟩ (by decide) rfl rfl rfl

/-! ## Serial string of the device-info event -/

theorem hex_value_digitChar : ∀ d < 16, hex_value (Nat.digitChar d) = some d := by
  decide

theorem digitChar_mem_hex : ∀ d < 16, Nat.digitChar d ∈ "0123456789abcdef".data := by
  decide

theorem parse_hex_from_append (acc : Nat) (s t : List Char) :
    parse_hex_from acc (s ++ t) = (parse_hex_from acc s).bind fun a => parse_hex_from a t := by
  induction s generalizing acc with
  | nil => rfl
  | cons c s ih =>
    cases hc : hex_value c with
    | none => simp [parse_hex_from, hc]
    | some d => simp [parse_hex_from, hc, ih]

theorem parse_hex_from_zeros (k : Nat) :
    parse_hex_from 0 (List.replicate k '0') = some 0 := by
  induction k with
  | zero => rfl
  | succ k ih =>
    have h0 : hex_value '0' = some 0 := by decide
    simp [List.replicate_succ, parse_hex_from, h0, ih]

theorem utoa_hex_parse (fuel n : Nat) (h : n < 16 ^ fuel) :
    parse_hex_from 0 (utoa_hex fuel n) = some n := by
  induction fuel generalizing n with
  | zero =>
    simp only [pow_zero, Nat.lt_one_iff] at h
    subst h
    rfl
  | succ fuel ih =>
    by_cases hn : n < 16
    · simp [utoa_hex, hn, parse_hex_from, hex_value_digitChar n hn]
    · have hdiv : n / 16 < 16 ^ fuel := by
        rw [Nat.div_lt_iff_lt_mul (by norm_num)]
        rw [pow_succ] at h
        exact h
      have hmod : n % 16 < 16 := Nat.mod_lt _ (by norm_num)
      simp only [utoa_hex, hn, if_false, parse_hex_from_append, ih (n / 16) hdiv,
        Option.some_bind, parse_hex_from, hex_value_digitChar (n % 16) hmod]
      rw [Nat.div_add_mod']

theorem utoa_hex_length_le (fuel n e : Nat) (he : 0 < e) (h : n < 16 ^ e) :
    (utoa_hex fuel n).length ≤ e := by
  induction fuel generalizing n e with
  | zero => simp [utoa_hex]
  | succ fuel ih =>
    by_cases hn : n < 16
    · simp only [utoa_hex, hn, if_true, List.length_singleton]
      omega
    · have he2 : 2 ≤ e := by
        by_contra hlt
        have : e = 1 := by omega
        subst this
        simp only [pow_one] at h
        exact hn h
      have hdiv : n / 16 < 16 ^ (e - 1) := by
        rw [Nat.div_lt_iff_lt_mul (by norm_num), ← pow_succ]
        have : e - 1 + 1 = e := by omega
        rw [this]
        exact h
      have := ih (n / 16) (e - 1) (by omega) hdiv
      simp only [utoa_hex, hn, if_false, List.length_append, List.length_singleton]
      omega

theorem utoa_hex_mem_hex (fuel n : Nat) :
    ∀ c ∈ utoa_hex fuel n, c ∈ "0123456789abcdef".data := by
  induction fuel generalizing n with
  | zero => simp [utoa_hex]
  | succ fuel ih =>
    by_cases hn : n < 16
    · intro c hc
      simp only [utoa_hex, hn, if_true, List.mem_singleton] at hc
      rw [hc]
      exact digitChar_mem_hex n hn
    · intro c hc
      simp only [utoa_hex, hn, if_false, List.mem_append, List.mem_singleton] at hc
      rcases hc with hc | hc
      · exact ih (n / 16) c hc
      · rw [hc]
        exact digitChar_mem_hex (n % 16) (Nat.mod_lt _ (by norm_num))

theorem lt_sixteen_pow_succ (n : Nat) : n < 16 ^ (n + 1) :=
  lt_trans (Nat.lt_pow_self (by norm_num) n) (Nat.pow_lt_pow_right (by norm_num) (by omega))

/-- The text of `%08x` for a 32-bit value: eight hexadecimal digits that read back as the
value. -/
theorem format_08x_spec (n : Nat) (h : n < 2 ^ 32) :
    (format_08x n).length = 8 ∧
    (∀ c ∈ format_08x n, c ∈ "0123456789abcdef".data) ∧
    parse_hex (format_08x n) = some n := by
  have hlen : (utoa_hex (n + 1) n).length ≤ 8 :=
    utoa_hex_length_le (n + 1) n 8 (by norm_num) (by norm_num at h ⊢; exact h)
  refine ⟨?_, ?_, ?_⟩
  · simp only [format_08x, List.length_append, List.length_replicate]
    omega
  · intro c hc
    simp only [format_08x, List.mem_append, List.mem_replicate] at hc
    rcases hc with ⟨-, rfl⟩ | hc
    · decide
    · exact utoa_hex_mem_hex _ _ c hc
  · simp only [parse_hex, format_08x, parse_hex_from_append, parse_hex_from_zeros,
      Option.some_bind]
    exact utoa_hex_parse (n + 1) n (lt_sixteen_pow_succ n)


theorem digitChar_ne_zero_char : ∀ d < 16, 0 < d → Nat.digitChar d ≠ '0' := by
  decide

/-- The digits of `%x` of a positive value start with a digit other than `'0'`. -/
theorem utoa_hex_head (fuel n : Nat) (hpos : 0 < n) (h : n < 16 ^ fuel) :
    ∃ c, (utoa_hex fuel n).head? = some c ∧ c ≠ '0' := by
  induction fuel generalizing n with
  | zero =>
    simp only [pow_zero, Nat.lt_one_iff] at h
    omega
  | succ fuel ih =>
    by_cases hn : n < 16
    · exact ⟨Nat.digitChar n, by simp [utoa_hex, hn], digitChar_ne_zero_char n hn hpos⟩
    · have hdiv : n / 16 < 16 ^ fuel := by
        rw [Nat.div_lt_iff_lt_mul (by norm_num)]
        rw [pow_succ] at h
        exact h
      have hdpos : 0 < n / 16 := Nat.div_pos (by omega) (by norm_num)
      obtain ⟨c, hc, hne⟩ := ih (n / 16) hdpos hdiv
      refine ⟨c, ?_, hne⟩
      simp only [utoa_hex, hn, if_false]
      cases hl : utoa_hex fuel (n / 16) with
      | nil => rw [hl] at hc; simp at hc
      | cons a l => rw [hl] at hc; simpa using hc

/-- C13: on a device-info event with a lookup callback and a model string present, the serial
string passed to the callback, for a 32-bit serial number, is exactly 8 characters long, all of
them hexadecimal digits, it is the `%x` digits of the serial padded on the left with zeros (the
digits themselves do not start with a zero unless the serial is zero), it reads back as a
base-16 number to the serial, and it is the whole text of the conversion: with its terminating
NUL it fits the 16-byte buffer. -/
theorem event_cb_serial_string (device : Nat) (devdata : device_data_t)
    (devinfo : dc_event_devinfo_t)
    (lookup : Option Nat → String → String → Option (List Nat) × Nat) (model : String)
    (hlookup : devdata.lookup_fingerprint = some lookup) (hmodel : devdata.model = some model)
    (hserial : devinfo.serial < 2 ^ 32) :
    ∃ serial : String,
      (event_cb device (dc_event_t.DC_EVENT_DEVINFO devinfo) (some devdata)).lookup
        = some (devdata.fingerprint_context, model, serial) ∧
      serial.length = 8 ∧
      (∀ c ∈ serial.data, c ∈ "0123456789abcdef".data) ∧
      parse_hex serial.data = some devinfo.serial ∧
      serial.data
        = List.replicate (8 - (utoa_hex (devinfo.serial + 1) devinfo.serial).length) '0'
          ++ utoa_hex (devinfo.serial + 1) devinfo.serial ∧
      (0 < devinfo.serial →
        ∃ c, (utoa_hex (devinfo.serial + 1) devinfo.serial).head? = some c ∧ c ≠ '0') ∧
      serial.data = format_08x devinfo.serial ∧
      serial.length + 1 ≤ 16 := by
  obtain ⟨hlen, hmem, hparse⟩ := format_08x_spec devinfo.serial hserial
  have hdata : (snprintf_08x 16 devinfo.serial).data = format_08x devinfo.serial := by
    simp only [snprintf_08x]
    exact List.take_of_length_le (by omega)
  refine ⟨snprintf_08x 16 devinfo.serial, ?_, ?_, ?_, ?_, ?_, ?_, hdata, ?_⟩
  · simp only [event_cb, hlookup, hmodel]
    split
    · split <;> rfl
    · rfl
  · rw [String.length, hdata, hlen]
  · rw [hdata]
    exact hmem
  · rw [hdata]
    exact hparse
  · rw [hdata]
    rfl
  · intro hpos
    exact utoa_hex_head _ _ hpos (lt_sixteen_pow_succ _)
  · rw [String.length, hdata, hlen]
    norm_num

/-- C13, for the serial number 0xbeef of a session record that has a lookup callback and the
model string "Suunto EON Steel". -/
theorem event_cb_serial_string_witness :
    ∃ serial : String,
      (event_cb 9 (dc_event_t.DC_EVENT_DEVINFO ⟨0, 0, 48879⟩)
        (some { device_data_zero with
          lookup_fingerprint := some fun _ _ _ => (none, 0),
          model := some "Suunto EON Steel" })).lookup
        = some (none, "Suunto EON Steel", serial) ∧
      serial.length = 8 ∧ parse_hex serial.data = some 48879 :=
  have h := event_cb_serial_string 9
    { device_data_zero with
      lookup_fingerprint := some fun _ _ _ => (none, 0), model := some "Suunto EON Steel" }
    ⟨0, 0, 48879⟩ (fun _ _ _ => (none, 0)) "Suunto EON Steel" rfl rfl (by decide)
  h.imp fun _ hs => ⟨hs.1, hs.2.1, hs.2.2.2.1⟩

/-! ## Order of the naming rules -/

set_option maxRecDepth 100000 in
theorem name_patterns_order_bounded :
    ∀ i < 46, ∀ j < 46, ∀ A ∈ name_patterns[i]?, ∀ B ∈ name_patterns[j]?,
      i ≠ j → pattern_matches A B.pfx = true → j < i := by
  decide

set_option maxRecDepth 100000 in
theorem name_patterns_first_match_bounded :
    ∀ j < 46, ∀ B ∈ name_patterns[j]?,
      pattern_matches B B.pfx = true ∧
      name_patterns.findIdx? (fun A => pattern_matches A B.pfx) = some j := by
  decide

theorem name_patterns_length : name_patterns.length = 46 := by
  decide

theorem lt_of_getElem?_name_patterns {i : Nat} {A : name_pattern}
    (h : name_patterns[i]? = some A) : i < 46 := by
  have := (List.getElem?_eq_some.1 h).1
  rw [name_patterns_length] at this
  exact this

/-- C14: the table is ordered with the more specific rules first. For any two rules at
different positions, if the text of the one is matched by the other under the other's match
kind, then the one is placed before the other. Equivalently, every rule matches its own text,
and scanning the table from the top with the text of a rule as the name, the first rule that
matches is that rule itself. -/
theorem name_patterns_specific_first :
    (∀ (i j : Nat) (A B : name_pattern),
      name_patterns[i]? = some A → name_patterns[j]? = some B → i ≠ j →
      pattern_matches A B.pfx = true → j < i) ∧
    (∀ (j : Nat) (B : name_pattern), name_patterns[j]? = some B →
      pattern_matches B B.pfx = true ∧
      name_patterns.findIdx? (fun A => pattern_matches A B.pfx) = some j) := by
  constructor
  · intro i j A B hA hB hne hm
    exact name_patterns_order_bounded i (lt_of_getElem?_name_patterns hA) j
      (lt_of_getElem?_name_patterns hB) A hA B hB hne hm
  · intro j B hB
    exact name_patterns_first_match_bounded j (lt_of_getElem?_name_patterns hB) B hB

/-- C14, for the rules "Petrel" at position 3 and "Petrel 3" at position 2: the text
"Petrel 3" is matched by the rule "Petrel", and the rule "Petrel 3" comes first. -/
theorem name_patterns_specific_first_witness : 2 < 3 :=
  name_patterns_specific_first.1 3 2 ⟨"Petrel", "Shearwater", "Petrel 2", MATCH_EXACT⟩
    ⟨"Petrel 3", "Shearwater", "Petrel 3", MATCH_EXACT⟩ (by decide) (by decide) (by decide)
    (by decide)

/-- A name that begins with "CARESIO_" and that no rule before the prefix rule matches
resolves to the "Cressi" "Cartesio" descriptor of the catalog. -/
theorem find_descriptor_by_name_caresio_unshadowed (iter_rc : Nat → dc_status_t)
    (h_iter : ∀ k, iter_rc k = DC_STATUS_SUCCESS) (catalog : List dc_descriptor_t)
    (name : String)
    (hname : strncmp name.data "CARESIO_".data (strlen "CARESIO_".data) = 0)
    (hearlier : ∀ q ∈ name_patterns.take 25, pattern_matches q name = false)
    (hcat : ∃ e ∈ catalog, e.vendor = some "Cressi" ∧ e.product = some "Cartesio") :
    (find_descriptor_by_name iter_rc catalog name).rc = DC_STATUS_SUCCESS ∧
    ∃ d, (find_descriptor_by_name iter_rc catalog name).out = some d ∧
      d.vendor = some "Cressi" ∧ d.product = some "Cartesio" := by
  obtain ⟨d, hfind, hv, hpr⟩ :=
    exists_find?_vendor_product catalog ⟨"CARESIO_", "Cressi", "Cartesio", MATCH_PREFIX⟩ hcat
  have hp : pattern_matches ⟨"CARESIO_", "Cressi", "Cartesio", MATCH_PREFIX⟩ name = true := by
    simp only [pattern_matches, decide_eq_true_eq]
    exact hname
  have key := find_descriptor_by_name_from_hit iter_rc h_iter catalog name
    ⟨"CARESIO_", "Cressi", "Cartesio", MATCH_PREFIX⟩ (name_patterns.drop 26) d hp
    hfind (name_patterns.take 25) 0
    (fun q hq hqm => absurd hqm (by rw [hearlier q hq]; exact Bool.false_ne_true))
  have htable : name_patterns.take 25
      ++ ⟨"CARESIO_", "Cressi", "Cartesio", MATCH_PREFIX⟩ :: name_patterns.drop 26
      = name_patterns := by decide
  rw [htable] at key
  exact ⟨key.1, d, key.2.1, hv, hpr⟩

/-- C15, evaluated: the name "CARESIO_00A1" begins with "CARESIO_", and the catalog has a
descriptor for every rule of the table, "Cressi" "Cartesio" among them. The rule "A1" at
position 17, whose kind `MATCH_EXACT` is evaluated as a substring search, matches the name
before the prefix rule "CARESIO_" at position 25 is reached, and the resolver returns the
"Scubapro" "Aladin A1" descriptor. -/
theorem find_descriptor_by_name_caresio_shadowed :
    strncmp "CARESIO_00A1".data "CARESIO_".data (strlen "CARESIO_".data) = 0 ∧
    (∃ e ∈ rule_catalog, e.vendor = some "Cressi" ∧ e.product = some "Cartesio") ∧
    (∀ p ∈ name_patterns, ∃ e ∈ rule_catalog,
      e.vendor = some p.vendor ∧ e.product = some p.product) ∧
    name_patterns[17]? = some ⟨"A1", "Scubapro", "Aladin A1", MATCH_EXACT⟩ ∧
    name_patterns[25]? = some ⟨"CARESIO_", "Cressi", "Cartesio", MATCH_PREFIX⟩ ∧
    pattern_matches ⟨"A1", "Scubapro", "Aladin A1", MATCH_EXACT⟩ "CARESIO_00A1" = true ∧
    (find_descriptor_by_name (fun _ => DC_STATUS_SUCCESS) rule_catalog "CARESIO_00A1").rc
      = DC_STATUS_SUCCESS ∧
    ((find_descriptor_by_name (fun _ => DC_STATUS_SUCCESS) rule_catalog "CARESIO_00A1").out.bind
      fun d => d.vendor) = some "Scubapro" ∧
    ((find_descriptor_by_name (fun _ => DC_STATUS_SUCCESS) rule_catalog "CARESIO_00A1").out.bind
      fun d => d.product) = some "Aladin A1" := by
  refine ⟨by decide, by decide, by decide, by decide, by decide, by decide, by decide,
    by decide, by decide⟩

end LibDCBridge
